import Mathlib

/-!
# Verification of the kitsune extended-SQS client pipeline

A shallow embedding of the message-transformation pipeline of the kitsune Go
library (package `kitsune`): the outbound compress → encrypt → S3-offload
stages of `Client.SendMessageWithAttributes` / `Client.SendMessageBatch`, the
inbound resolution in `Client.ReceiveMessages`, the KMS data-key cache in
`kms.go`, and the batch machinery.

Byte strings are modelled as `List Nat`.  Go maps are modelled as association
lists with map-update semantics.  External collaborators (gzip, base64,
AES-GCM, the AWS KMS / S3 / SQS transports, md5, uuid generation and the
wall clock) are modelled as an explicit environment of pure functions; Go's
`time.Now()` becomes an explicit `now : Nat` parameter.  Go panics (nil
pointer dereference, slice bounds) are modelled by an explicit constructor.
-/

set_option maxHeartbeats 1600000

namespace Kitsune

abbrev Bytes := List Nat

/-- Length of a Go string in bytes (`len(s)` in Go counts UTF-8 bytes). -/
def goStrLen (s : String) : Nat :=
  s.data.foldl (fun n c => n + c.utf8Size) 0

/-- The bytes of a Go string, one `Nat` per rune position (used only as an
injective encoding of strings into `Bytes` for fingerprinting/serialisation
in the model). -/
def strBytes (s : String) : Bytes := s.data.map Char.toNat

def bytesStr (l : Bytes) : String := ⟨l.map Char.ofNat⟩


/-! ## Association lists with Go-map semantics -/

section Assoc

variable {κ α : Type} [DecidableEq κ]

def assocLookup : List (κ × α) → κ → Option α
  | [], _ => none
  | (k, v) :: rest, key => if k = key then some v else assocLookup rest key

def assocContains (l : List (κ × α)) (key : κ) : Bool :=
  (assocLookup l key).isSome

/-- Go map assignment `m[key] = v`: replaces the entry if present (keeping
its position), appends otherwise. -/
def assocSet (l : List (κ × α)) (key : κ) (v : α) : List (κ × α) :=
  if assocContains l key then
    l.map (fun p => if p.1 = key then (key, v) else p)
  else l ++ [(key, v)]

/-- Go map `delete(m, key)`. -/
def assocErase (l : List (κ × α)) (key : κ) : List (κ × α) :=
  l.filter (fun p => !decide (p.1 = key))

end Assoc

/-! ## Errors (`sqs.go`, `kitsune.go`) -/

/-- Go `error` values surfaced by the client.  Named errors mirror the
package-level `var Error...` declarations; `ext` stands for an opaque error
value produced by an external collaborator (AWS SDK, gzip, base64, json,
crypto); `wrap` models `fmt.Errorf("<context>: %v", err)`. -/
inductive Err where
  | errorMaxMessageSizeExceeded
  | errorMaxNumberOfAttributesExceeded
  | errorMaxBatchSizeExceeded
  | errorIDNotUnique
  | errorBatchAlreadySent
  | ext (tag : String)
  | wrap (ctx : String) (e : Err)
deriving DecidableEq, Repr

/-- Rendering of an error as in `fmt.Sprintf("%v", err)` (shape only). -/
def errText : Err → String
  | .errorMaxMessageSizeExceeded => "maximum message size of 262144 bytes exceeded"
  | .errorMaxNumberOfAttributesExceeded => "maximum number of attributes of 10 exceeded"
  | .errorMaxBatchSizeExceeded => "maximum batch size of 10 exceeded"
  | .errorIDNotUnique => "all ids in a batch needs to be unique"
  | .errorBatchAlreadySent => "all ids in a batch needs to be unique"
  | .ext tag => tag
  | .wrap ctx e => ctx ++ ": " ++ errText e

/-- Outcome of a Go call that returns `(T, error)` where the caller only
consumes the value when the error is nil; `panicked` models a Go runtime
panic (nil pointer dereference, slice bounds out of range). -/
inductive GoVal (α : Type) where
  | ok (a : α)
  | err (e : Err)
  | panicked (msg : String)
deriving DecidableEq, Repr

/-- Outcome of a Go call whose multiple return values are all consumed by the
caller (even when the error is non-nil), or a runtime panic. -/
inductive GoStep (α : Type) where
  | ret (a : α)
  | panicked (msg : String)
deriving DecidableEq, Repr

/-! ## Data model (`sqs.go`, `kms.go`, `s3.go`, `kitsune.go`) -/

/-- `sqs.MessageAttributeValue`, restricted to the string variant actually
used by this library. -/
structure MessageAttributeValue where
  dataType : String
  stringValue : String
deriving DecidableEq, Repr

abbrev AttrMap := List (String × MessageAttributeValue)

/-- Attribute name used by the sender to pass the location of messages put on
S3 to the receiver (`AttributeNameS3Bucket` in `kitsune.go`). -/
def AttributeNameS3Bucket : String := "payloadBucket"

/-- Attribute name used to pass the KMS key used to encrypt the data key
(`AttributeNameKMSKey` in `kitsune.go`). -/
def AttributeNameKMSKey : String := "kmsKey"

/-- Attribute name used to signal that the payload is compressed
(`AttributeCompression` in `kitsune.go`). -/
def AttributeCompression : String := "compression"

/-- The maximum size of a SQS payload is 262,144 bytes (`sqs.go`). -/
def maxMessageSize : Nat := 256 * 1024

/-- The maximum number of custom attributes are 10 (`sqs.go`). -/
def maxNumberOfAttributes : Nat := 10

/-- Maximum number of messages allowed in a batch (`sqs.go`). -/
def maxBatchSize : Nat := 10

/-- `sqsSendEvent` in `sqs.go`. -/
structure sqsSendEvent where
  payload : Bytes
  messageAttributes : AttrMap
  id : String
deriving DecidableEq, Repr

/-- `sqsSendEvent.size()`: payload length plus, for every attribute, the
lengths of its key, data type and string value. -/
def sqsSendEvent.size (s : sqsSendEvent) : Nat :=
  s.messageAttributes.foldl
    (fun acc kv => acc + goStrLen kv.1 + goStrLen kv.2.dataType + goStrLen kv.2.stringValue)
    s.payload.length

/-- An SQS message as seen on the wire / returned by `ReceiveMessage`
(`sqs.Message`, restricted to the fields the pipeline reads and writes). -/
structure Message where
  body : Bytes
  messageAttributes : AttrMap
deriving DecidableEq, Repr

/-- `encryptedEvent` in `kms.go`: the JSON envelope put on the wire when the
payload is encrypted. -/
structure encryptedEvent where
  encryptedEncryptionKey : Bytes
  keyId : String
  payload : Bytes
deriving DecidableEq, Repr

/-- `fileEvent` in `s3.go`: the JSON descriptor put on the wire when the
payload is offloaded to S3 (pointer fields are modelled as `Option`). -/
structure fileEvent where
  size : Option Nat
  bucket : Option String
  filename : Option String
deriving DecidableEq, Repr

/-- `kms.GenerateDataKeyOutput`, restricted to the fields used. -/
structure genOut where
  plaintext : Bytes
  ciphertextBlob : Bytes
  keyId : String
deriving DecidableEq, Repr

/-- An entry of `sqs.SendMessageBatchOutput.Failed`
(`sqs.BatchResultErrorEntry`). -/
structure batchResultErrorEntry where
  code : String
  id : String
  message : String
  senderFault : Bool
deriving DecidableEq, Repr

/-- `sqs.SendMessageBatchRequestEntry`, restricted to the fields the client
fills in (delay seconds omitted: it is constant configuration). -/
structure batchRequestEntry where
  id : String
  messageBody : Bytes
  messageAttributes : AttrMap
deriving DecidableEq, Repr

/-- `sqs.SendMessageBatchOutput`, restricted to the fields used. -/
structure sendMessageBatchOutput where
  successful : List String
  failed : List batchResultErrorEntry
deriving DecidableEq, Repr

/-- The client configuration options relevant to the pipeline
(`options` in `kitsune.go`). -/
structure clientOpts where
  s3Bucket : String
  forceS3 : Bool
  kmsKeyID : String
  compressionEnabled : Bool
  kmsKeyCacheEnabled : Bool
  kmsKeyCacheExpirationPeriod : Nat
deriving DecidableEq, Repr

/-- The external S3 object store, keyed by (bucket, object key): the state
mutated by a faithful `PutObject` and read by a faithful `GetObject`. -/
abbrev S3Store := List ((String × String) × Bytes)

/-- The environment of external collaborators: every function the pipeline
calls whose body is outside this repository (standard library compression,
encoding and crypto primitives, the AWS KMS / S3 / SQS transports, uuid
generation).  They are modelled as pure functions; `Option Err` or
`Except Err` components model the Go error return. -/
structure Env where
  /-- Raw gzip compression (`gzip.Writer.Write` + `Close` into a buffer). -/
  gzipCompress : Bytes → Except Err Bytes
  /-- Raw gzip decompression (`gzip.NewReader` + `ReadAll` + `Close`). -/
  gunzip : Bytes → Except Err Bytes
  /-- `base64.StdEncoding.Encode`. -/
  base64Encode : Bytes → Bytes
  /-- `base64.StdEncoding.Decode` (can fail on invalid input). -/
  base64Decode : Bytes → Except Err Bytes
  /-- `md5.Sum`, the cache fingerprint function. -/
  md5Sum : Bytes → Bytes
  /-- `awsKMS.GenerateDataKey` for the given key id. -/
  generateDataKeyExt : String → Except Err genOut
  /-- `awsKMS.Decrypt`: unwraps a ciphertext blob into a plaintext data key. -/
  decryptExt : Bytes → Except Err Bytes
  /-- AES-GCM seal with the given key and nonce (the sealed part that Go's
  `gcm.Seal(nonce, nonce, data, nil)` appends after the nonce). -/
  gcmSeal : Bytes → Bytes → Bytes → Bytes
  /-- AES-GCM open with the given key and nonce (authentication may fail). -/
  gcmOpen : Bytes → Bytes → Bytes → Except Err Bytes
  /-- The random nonce drawn from `rand.Reader` by `encryptData`. -/
  nonce : Bytes
  /-- `json.Marshal` of an `encryptedEvent`. -/
  marshalEncryptedEvent : encryptedEvent → Except Err Bytes
  /-- `json.Unmarshal` into an `encryptedEvent`. -/
  unmarshalEncryptedEvent : Bytes → Except Err encryptedEvent
  /-- `json.Marshal` of a `fileEvent`. -/
  marshalFileEvent : fileEvent → Except Err Bytes
  /-- `json.Unmarshal` into a `fileEvent`. -/
  unmarshalFileEvent : Bytes → Except Err fileEvent
  /-- `uuid.New().String()`, the S3 object key chosen by `putObject`. -/
  uuid : String
  /-- Outcome of the external `awsS3.PutObject` call. -/
  putObjectExt : Option Err
  /-- Outcome of the external `awsSQS.SendMessage` call. -/
  sendMessageExt : Message → Option Err
  /-- `awsSQS.GetQueueUrl`: the output pointer (itself holding the `QueueUrl`
  string pointer) and the error, either of which may be nil. -/
  getQueueUrlExt : String → Option (Option String) × Option Err
  /-- `awsSQS.SendMessageBatch`: output pointer and error. -/
  sendMessageBatchExt : String → List batchRequestEntry → Option sendMessageBatchOutput × Option Err
  /-- `awsSQS.ReceiveMessage`: output pointer (holding the messages) and error. -/
  receiveMessageExt : String → Option (List Message) × Option Err

/-! ## KMS key cache and client (`kms.go`) -/

/-- `cacheEntry` in `kms.go`; `entered` is the `time.Now()` instant of the
`put` that created the entry. -/
structure cacheEntry where
  plainText : Bytes
  cipherText : Bytes
  entered : Nat
deriving DecidableEq, Repr

/-- `keyCache` in `kms.go`; keys are md5 fingerprints
([16]byte, modelled as `Bytes`). -/
structure keyCache where
  entries : List (Bytes × cacheEntry)
  expirationPeriod : Nat
deriving DecidableEq, Repr

/-- `keyCache.clean()`: delete every entry with
`entry.entered.Add(expirationPeriod).Before(now)`. -/
def keyCache.clean (kc : keyCache) (now : Nat) : keyCache :=
  { kc with
    entries := kc.entries.filter
      (fun e => !decide (e.2.entered + kc.expirationPeriod < now)) }

/-- `keyCache.put`: clean, then store the entry under the fingerprint with
`entered = time.Now()`. -/
def keyCache.put (kc : keyCache) (now : Nat) (key plainText cipherText : Bytes) : keyCache :=
  let kc := kc.clean now
  { kc with entries := assocSet kc.entries key ⟨plainText, cipherText, now⟩ }

/-- `keyCache.get`: clean, then look the fingerprint up. -/
def keyCache.get (kc : keyCache) (now : Nat) (key : Bytes) :
    keyCache × Option cacheEntry :=
  let kc := kc.clean now
  (kc, assocLookup kc.entries key)

/-- The mutable state of a `kmsClient`: its cache pointer (`nil` when key
caching is disabled, as set up by `newKMSClient`), plus instrumentation
counters for the external KMS calls (`GenerateDataKey` and `Decrypt`). -/
structure kmsState where
  cache : Option keyCache
  genCalls : Nat
  decCalls : Nat
deriving DecidableEq, Repr

/-- `newKMSClient`: the cache is created only when key caching is enabled. -/
def newKMSState (opts : clientOpts) : kmsState :=
  { cache :=
      if opts.kmsKeyCacheEnabled then
        some ⟨[], opts.kmsKeyCacheExpirationPeriod⟩
      else none,
    genCalls := 0,
    decCalls := 0 }

/-- AES key-length validation performed by `aes.NewCipher`. -/
def validAESKeyLen (key : Bytes) : Bool :=
  key.length == 16 || key.length == 24 || key.length == 32

/-- The AES-GCM nonce size used by `gcm.NonceSize()`. -/
def gcmNonceSize : Nat := 12

/-- `encryptData` in `kms.go`: build the AES-GCM cipher for `key`, draw a
nonce, and return `gcm.Seal(nonce, nonce, data, nil)` = nonce ++ sealed. -/
def encryptData (env : Env) (data key : Bytes) : Except Err Bytes :=
  if validAESKeyLen key then
    .ok (env.nonce ++ env.gcmSeal key env.nonce data)
  else
    .error (.ext "crypto/aes: invalid key size")

/-- `decryptData` in `kms.go`: build the cipher, then split
`nonce, ciphertext := data[:nonceSize], data[nonceSize:]` — which panics with
a slice-bounds error when `data` is shorter than the nonce — and open. -/
def decryptData (env : Env) (data key : Bytes) : GoVal Bytes :=
  if validAESKeyLen key then
    if data.length < gcmNonceSize then
      .panicked "runtime error: slice bounds out of range"
    else
      match env.gcmOpen key (data.take gcmNonceSize) (data.drop gcmNonceSize) with
      | .ok plaintext => .ok plaintext
      | .error e => .err e
  else
    .err (.ext "crypto/aes: invalid key size")

/-- `kmsClient.generateDataKey`: consult the cache under the md5 fingerprint
of the key id; on a miss call the external `GenerateDataKey` and, when
caching is enabled, store the result under both the key-id fingerprint and
the ciphertext-blob fingerprint. -/
def kmsClient.generateDataKey (env : Env) (opts : clientOpts) (st : kmsState) (now : Nat)
    (keyId : String) : kmsState × Except Err genOut :=
  let afterGet : kmsState × Option cacheEntry :=
    match st.cache with
    | some kc =>
      let r := kc.get now (env.md5Sum (strBytes keyId))
      ({ st with cache := some r.1 }, r.2)
    | none => (st, none)
  match afterGet with
  | (st, some entry) => (st, .ok ⟨entry.plainText, entry.cipherText, keyId⟩)
  | (st, none) =>
    let st := { st with genCalls := st.genCalls + 1 }
    match env.generateDataKeyExt keyId with
    | .ok gko =>
      let st :=
        if opts.kmsKeyCacheEnabled then
          match st.cache with
          | some kc =>
            let kc := kc.put now (env.md5Sum (strBytes keyId)) gko.plaintext gko.ciphertextBlob
            let kc := kc.put now (env.md5Sum gko.ciphertextBlob) gko.plaintext gko.ciphertextBlob
            { st with cache := some kc }
          | none => st
        else st
      (st, .ok gko)
    | .error e => (st, .error e)

/-- `kmsClient.encrypt`: generate (or fetch) a data key for `keyID`, encrypt
the payload with its plaintext part, and assemble the `encryptedEvent`
envelope. -/
def kmsClient.encrypt (env : Env) (opts : clientOpts) (st : kmsState) (now : Nat)
    (keyID : String) (payload : Bytes) : kmsState × Except Err encryptedEvent :=
  match kmsClient.generateDataKey env opts st now keyID with
  | (st, .error e) => (st, .error e)
  | (st, .ok gko) =>
    match encryptData env payload gko.plaintext with
    | .ok encryptedPayload =>
      (st, .ok ⟨gko.ciphertextBlob, gko.keyId, encryptedPayload⟩)
    | .error e => (st, .error e)

/-- `kmsClient.fetchKey`: consult the cache under the md5 fingerprint of the
wrapped key; on a miss call the external `Decrypt` and, when caching is
enabled, store the unwrapped key under the wrapped-key fingerprint. -/
def kmsClient.fetchKey (env : Env) (opts : clientOpts) (st : kmsState) (now : Nat)
    (ciphertextBlob : Bytes) : kmsState × Except Err Bytes :=
  let afterGet : kmsState × Option cacheEntry :=
    match st.cache with
    | some kc =>
      let r := kc.get now (env.md5Sum ciphertextBlob)
      ({ st with cache := some r.1 }, r.2)
    | none => (st, none)
  match afterGet with
  | (st, some entry) => (st, .ok entry.plainText)
  | (st, none) =>
    let st := { st with decCalls := st.decCalls + 1 }
    match env.decryptExt ciphertextBlob with
    | .ok plaintext =>
      let st :=
        if opts.kmsKeyCacheEnabled then
          match st.cache with
          | some kc =>
            { st with
              cache := some (kc.put now (env.md5Sum ciphertextBlob) plaintext ciphertextBlob) }
          | none => st
        else st
      (st, .ok plaintext)
    | .error e => (st, .error e)

/-- `kmsClient.decrypt`: unwrap the data key (cache or external call) and
decrypt the payload of the envelope with it. -/
def kmsClient.decrypt (env : Env) (opts : clientOpts) (st : kmsState) (now : Nat)
    (ee : encryptedEvent) : kmsState × GoVal Bytes :=
  match kmsClient.fetchKey env opts st now ee.encryptedEncryptionKey with
  | (st, .error e) => (st, .err e)
  | (st, .ok plaintextKey) => (st, decryptData env ee.payload plaintextKey)

/-! ## S3 client (`s3.go`) -/

/-- `s3Client.putObject`: choose a fresh uuid key, build the `fileEvent`
descriptor recording the exact uploaded length, and call the external
`PutObject` (which, when it succeeds, stores the payload under
(bucket, key)).  The descriptor is returned together with the error, as in
the source. -/
def s3Client.putObject (env : Env) (store : S3Store) (bucket : String) (payload : Bytes) :
    S3Store × fileEvent × Option Err :=
  let key := env.uuid
  let fe : fileEvent := ⟨some payload.length, some bucket, some key⟩
  match env.putObjectExt with
  | none => (assocSet store (bucket, key) payload, fe, none)
  | some e => (store, fe, some e)

/-- `s3Client.getObject`: fetch by the bucket and key recorded in the
descriptor from the (faithful) external store. -/
def s3Client.getObject (store : S3Store) (fe : fileEvent) : Except Err Bytes :=
  match fe.bucket, fe.filename with
  | some b, some f =>
    match assocLookup store (b, f) with
    | some payload => .ok payload
    | none => .error (.ext "NoSuchKey")
  | _, _ => .error (.ext "NoSuchKey")

/-! ## Compression helpers (`kitsune.go`) -/

/-- `compressData`: gzip the payload and base64-encode the result so it
survives a text-only transport. -/
def compressData (env : Env) (payload : Bytes) : Except Err Bytes :=
  match env.gzipCompress payload with
  | .ok buf => .ok (env.base64Encode buf)
  | .error e => .error e

/-- `decompressData`: base64-decode, then gunzip. -/
def decompressData (env : Env) (payload : Bytes) : Except Err Bytes :=
  match env.base64Decode payload with
  | .ok decoded => env.gunzip decoded
  | .error e => .error e

/-! ## SQS client (`sqs.go`, current version = `src/unnamed/part_001`) -/

abbrev QueueCache := List (String × String)

/-- `sqsClient.getQueueURL`: consult the queue-URL cache; on a miss call the
external `GetQueueUrl`.  The source dereferences `output.QueueUrl` (and, on
the success path, `*output.QueueUrl`) without a nil check, so a nil output
pointer — or a nil `QueueUrl` field on the success path — panics. -/
def sqsClient.getQueueURL (env : Env) (qc : QueueCache) (queueName : String) :
    QueueCache × GoVal String :=
  match assocLookup qc queueName with
  | some value => (qc, .ok value)
  | none =>
    match env.getQueueUrlExt queueName with
    | (none, _) =>
      (qc, .panicked "runtime error: invalid memory address or nil pointer dereference")
    | (some queueUrl, none) =>
      match queueUrl with
      | none =>
        (qc, .panicked "runtime error: invalid memory address or nil pointer dereference")
      | some url => (assocSet qc queueName url, .ok url)
    | (some _, some e) => (qc, .err e)

/-- `sqsClient.sendMessage`: validate the attribute count, then the total
message size, resolve the queue URL, and hand the body and attributes to the
external `SendMessage`.  A faithful queue appends the accepted message to
`queue`. -/
def sqsClient.sendMessage (env : Env) (qc : QueueCache) (queue : List Message)
    (queueName : String) (event : sqsSendEvent) :
    QueueCache × List Message × GoVal Unit :=
  if event.messageAttributes.length > maxNumberOfAttributes then
    (qc, queue, .err .errorMaxNumberOfAttributesExceeded)
  else if event.size > maxMessageSize then
    (qc, queue, .err .errorMaxMessageSizeExceeded)
  else
    match sqsClient.getQueueURL env qc queueName with
    | (qc, .panicked m) => (qc, queue, .panicked m)
    | (qc, .err e) => (qc, queue, .err e)
    | (qc, .ok _url) =>
      let msg : Message := ⟨event.payload, event.messageAttributes⟩
      match env.sendMessageExt msg with
      | none => (qc, queue ++ [msg], .ok ())
      | some e => (qc, queue, .err e)

/-- `sqsClient.bacthRequestEntry` (name as in the source): the same two
validations as `sendMessage`, then the batch request entry. -/
def sqsClient.bacthRequestEntry (event : sqsSendEvent) : Except Err batchRequestEntry :=
  if event.messageAttributes.length > maxNumberOfAttributes then
    .error .errorMaxNumberOfAttributesExceeded
  else if event.size > maxMessageSize then
    .error .errorMaxMessageSizeExceeded
  else
    .ok ⟨event.id, event.payload, event.messageAttributes⟩

/-- `sqsClient.sendMessageBatch`: resolve the queue URL (an error returns a
nil output), then call the external `SendMessageBatch`, returning its output
pointer and error verbatim.  The boolean records whether the external
transport call happened (instrumentation). -/
def sqsClient.sendMessageBatch (env : Env) (qc : QueueCache) (queueName : String)
    (entries : List batchRequestEntry) :
    QueueCache × GoStep (Option sendMessageBatchOutput × Option Err) × Bool :=
  match sqsClient.getQueueURL env qc queueName with
  | (qc, .panicked m) => (qc, .panicked m, false)
  | (qc, .err e) => (qc, .ret (none, some e), false)
  | (qc, .ok _url) =>
    let r := env.sendMessageBatchExt queueName entries
    (qc, .ret r, true)

/-- `sqsClient.receiveMessage`: resolve the queue URL and call the external
`ReceiveMessage`; the source returns `output.Messages, err` without a nil
check on `output`. -/
def sqsClient.receiveMessage (env : Env) (qc : QueueCache) (queueName : String) :
    QueueCache × GoVal (List Message) :=
  match sqsClient.getQueueURL env qc queueName with
  | (qc, .panicked m) => (qc, .panicked m)
  | (qc, .err e) => (qc, .err e)
  | (qc, .ok _url) =>
    match env.receiveMessageExt queueName with
    | (none, _) =>
      (qc, .panicked "runtime error: invalid memory address or nil pointer dereference")
    | (some messages, none) => (qc, .ok messages)
    | (some _, some e) => (qc, .err e)

/-- `getBatchResultError` in `sqs.go`. -/
def getBatchResultError (id : String) (e : Err) : batchResultErrorEntry :=
  ⟨"custom", id, "client error when sending batch: " ++ errText e, true⟩

/-! ## The Client pipeline (`kitsune.go`, current version = `src/unnamed/part_005`) -/

/-- The mutable state reachable from a `Client`: the KMS client state, the
external S3 object store, the queue-URL cache, the faithful external queue
(messages accepted by `SendMessage`), and an instrumentation counter for
external `SendMessageBatch` transport calls. -/
structure ClientState where
  kms : kmsState
  store : S3Store
  queueCache : QueueCache
  queue : List Message
  sendBatchCalls : Nat
deriving DecidableEq, Repr

/-- The state of a freshly constructed client over empty external stores. -/
def newClientState (opts : clientOpts) : ClientState :=
  ⟨newKMSState opts, [], [], [], 0⟩

/-- `compress` in `kitsune.go`: compress the payload; on success replace it
and record the compression marker attribute.  On failure the event is
returned unchanged together with the error (the source mutates the event
only after `compressData` succeeded). -/
def compress (env : Env) (s : sqsSendEvent) : sqsSendEvent × Option Err :=
  match compressData env s.payload with
  | .ok compressed =>
    ({ s with
        payload := compressed,
        messageAttributes :=
          assocSet s.messageAttributes AttributeCompression ⟨"String", "gzip"⟩ },
      none)
  | .error e => (s, some e)

/-- `Client.encrypt`: encrypt the payload under the configured KMS key,
marshal the envelope, replace the payload and record the KMS-key marker
attribute.  On failure the event is returned unchanged together with the
(wrapped) error. -/
def Client.encrypt (env : Env) (opts : clientOpts) (st : kmsState) (now : Nat)
    (s : sqsSendEvent) : kmsState × sqsSendEvent × Option Err :=
  match kmsClient.encrypt env opts st now opts.kmsKeyID s.payload with
  | (st, .error e) => (st, s, some (.wrap "error encrypting payload" e))
  | (st, .ok encryptedEvent) =>
    match env.marshalEncryptedEvent encryptedEvent with
    | .error e => (st, s, some e)
    | .ok encryptedEventBytes =>
      (st,
        { s with
          payload := encryptedEventBytes,
          messageAttributes :=
            assocSet s.messageAttributes AttributeNameKMSKey ⟨"String", opts.kmsKeyID⟩ },
        none)

/-- `Client.uploadToS3`: put the payload to the configured bucket, marshal
the returned `fileEvent` descriptor, replace the payload by it and record
the S3-bucket marker attribute.  On failure the event is returned unchanged
together with the (wrapped) error. -/
def Client.uploadToS3 (env : Env) (opts : clientOpts) (store : S3Store)
    (s : sqsSendEvent) : S3Store × sqsSendEvent × Option Err :=
  match s3Client.putObject env store opts.s3Bucket s.payload with
  | (_, _, some e) => (store, s, some (.wrap "error puting object to S3" e))
  | (store, fe, none) =>
    match env.marshalFileEvent fe with
    | .error e => (store, s, some e)
    | .ok fileEventBytes =>
      (store,
        { s with
          payload := fileEventBytes,
          messageAttributes :=
            assocSet s.messageAttributes AttributeNameS3Bucket ⟨"String", opts.s3Bucket⟩ },
        none)

/-- `Client.SendMessageWithAttributes`: build the send event, then run the
three optional stages in order — compress when enabled, encrypt when a KMS
key is configured, upload to S3 when forced or oversized and a bucket is
configured — and finally hand the event to `sqsClient.sendMessage`.  Any
stage failure returns immediately. -/
def Client.SendMessageWithAttributes (env : Env) (opts : clientOpts) (st : ClientState)
    (now : Nat) (queueName : String) (payload : Bytes) (messageAttributes : AttrMap) :
    ClientState × GoVal Unit :=
  let event : sqsSendEvent := ⟨payload, messageAttributes, ""⟩
  match (if opts.compressionEnabled then compress env event else (event, none)) with
  | (_, some e) => (st, .err e)
  | (event, none) =>
    match (if opts.kmsKeyID ≠ "" then Client.encrypt env opts st.kms now event
           else (st.kms, event, none)) with
    | (kst, _, some e) => ({ st with kms := kst }, .err e)
    | (kst, event, none) =>
      match (if (opts.forceS3 ∨ event.size > maxMessageSize) ∧ opts.s3Bucket ≠ "" then
               Client.uploadToS3 env opts st.store event
             else (st.store, event, none)) with
      | (store, _, some e) => ({ st with kms := kst, store := store }, .err e)
      | (store, event, none) =>
        match sqsClient.sendMessage env st.queueCache st.queue queueName event with
        | (qc, queue, r) =>
          ({ st with kms := kst, store := store, queueCache := qc, queue := queue },
            match r with
            | .ok _ => .ok ()
            | .err e => .err e
            | .panicked m => .panicked m)

/-- `Client.SendMessage`: send without caller attributes. -/
def Client.SendMessage (env : Env) (opts : clientOpts) (st : ClientState) (now : Nat)
    (queueName : String) (payload : Bytes) : ClientState × GoVal Unit :=
  Client.SendMessageWithAttributes env opts st now queueName payload []

/-! ## Batches (`kitsune.go`) -/

/-- `Batch` in `kitsune.go` (`ids` models the `map[string]struct{}` key set;
`sent` the `uint32` flag). -/
structure Batch where
  size : Nat
  ids : List String
  events : List sqsSendEvent
  sent : Bool
deriving DecidableEq, Repr

/-- `NewBatch`. -/
def NewBatch : Batch := ⟨0, [], [], false⟩

/-- `Batch.Add`: reject when the batch is full, then when the id is already
present; otherwise append the event.  Returns the updated batch, the batch
size and the error. -/
def Batch.Add (b : Batch) (payload : Bytes) (id : String) (messageAttributes : AttrMap) :
    Batch × Nat × Option Err :=
  if b.size ≥ maxBatchSize then (b, b.size, some .errorMaxBatchSizeExceeded)
  else if b.ids.contains id then (b, b.size, some .errorIDNotUnique)
  else
    let b' : Batch :=
      { b with
        events := b.events ++ [⟨payload, messageAttributes, id⟩],
        size := b.size + 1,
        ids := b.ids ++ [id] }
    (b', b'.size, none)

/-- One iteration of the event loop of `Client.SendMessageBatch`: run the
three optional stages on one event; a stage failure yields a
`batchResultErrorEntry`, success yields a `batchRequestEntry` (after the
`bacthRequestEntry` validations). -/
def processBatchEvent (env : Env) (opts : clientOpts) (kst : kmsState) (store : S3Store)
    (now : Nat) (event : sqsSendEvent) :
    kmsState × S3Store × (batchRequestEntry ⊕ batchResultErrorEntry) :=
  match (if opts.compressionEnabled then compress env event else (event, none)) with
  | (_, some e) => (kst, store, .inr (getBatchResultError event.id e))
  | (event, none) =>
    match (if opts.kmsKeyID ≠ "" then Client.encrypt env opts kst now event
           else (kst, event, none)) with
    | (kst, _, some e) => (kst, store, .inr (getBatchResultError event.id e))
    | (kst, event, none) =>
      match (if (opts.forceS3 ∨ event.size > maxMessageSize) ∧ opts.s3Bucket ≠ "" then
               Client.uploadToS3 env opts store event
             else (store, event, none)) with
      | (store, _, some e) => (kst, store, .inr (getBatchResultError event.id e))
      | (store, event, none) =>
        match sqsClient.bacthRequestEntry event with
        | .error e => (kst, store, .inr (getBatchResultError event.id e))
        | .ok entry => (kst, store, .inl entry)

/-- The event loop of `Client.SendMessageBatch` over all events, collecting
the request entries and the per-message failures in order. -/
def processBatchEvents (env : Env) (opts : clientOpts) (kst : kmsState) (store : S3Store)
    (now : Nat) :
    List sqsSendEvent →
      kmsState × S3Store × List batchRequestEntry × List batchResultErrorEntry
  | [] => (kst, store, [], [])
  | event :: rest =>
    match processBatchEvent env opts kst store now event with
    | (kst, store, out) =>
      match processBatchEvents env opts kst store now rest with
      | (kst, store, entries, failed) =>
        match out with
        | .inl entry => (kst, store, entry :: entries, failed)
        | .inr fe => (kst, store, entries, fe :: failed)

/-- `Client.SendMessageBatch`: fail fast when the batch was already sent;
otherwise mark it sent, push every event through the per-message pipeline,
submit the successful entries, and append the client-side failures to the
transport's output — dereferencing the output pointer without a nil check. -/
def Client.SendMessageBatch (env : Env) (opts : clientOpts) (st : ClientState) (now : Nat)
    (queueName : String) (batch : Batch) :
    (Batch × ClientState) × GoStep (Option sendMessageBatchOutput × Option Err) :=
  if batch.sent then ((batch, st), .ret (none, some .errorBatchAlreadySent))
  else
    let batch := { batch with sent := true }
    match processBatchEvents env opts st.kms st.store now batch.events with
    | (kst, store, entries, failed) =>
      match sqsClient.sendMessageBatch env st.queueCache queueName entries with
      | (qc, .panicked m, called) =>
        ((batch,
          { st with
            kms := kst, store := store, queueCache := qc,
            sendBatchCalls := st.sendBatchCalls + (if called then 1 else 0) }),
          .panicked m)
      | (qc, .ret (batchOutput, err), called) =>
        let st :=
          { st with
            kms := kst, store := store, queueCache := qc,
            sendBatchCalls := st.sendBatchCalls + (if called then 1 else 0) }
        match batchOutput with
        | none =>
          ((batch, st),
            .panicked "runtime error: invalid memory address or nil pointer dereference")
        | some bo =>
          ((batch, st), .ret (some { bo with failed := bo.failed ++ failed }, err))

/-! ## Inbound resolution (`Client.ReceiveMessages` in `kitsune.go`) -/

/-- `ReceiveMessagesResult`: successfully resolved messages and failed
entries (message together with its error). -/
structure ReceiveMessagesResult where
  successful : List Message
  failed : List (Message × Err)
deriving DecidableEq, Repr

/-- The body of the per-message loop of `Client.ReceiveMessages`: if the S3
marker is present *and the client has an S3 client* (a bucket was
configured), fetch the real payload and strip the marker; then, if the KMS
marker is present *and the client has a KMS client* (a key id was
configured), decrypt and strip; then, if the compression marker is present,
decompress and strip.  A failure at any step yields a failed entry carrying
the message as mutated so far. -/
def resolveMessage (env : Env) (opts : clientOpts) (store : S3Store) (kst : kmsState)
    (now : Nat) (message : Message) :
    kmsState × GoStep (Message ⊕ Message × Err) :=
  let stepS3 : Message ⊕ Message × Err :=
    if assocContains message.messageAttributes AttributeNameS3Bucket ∧ opts.s3Bucket ≠ "" then
      match env.unmarshalFileEvent message.body with
      | .error e => .inr (message, e)
      | .ok fe =>
        match s3Client.getObject store fe with
        | .ok payload =>
          .inl { message with
                 body := payload,
                 messageAttributes :=
                   assocErase message.messageAttributes AttributeNameS3Bucket }
        | .error e => .inr (message, e)
    else .inl message
  match stepS3 with
  | .inr f => (kst, .ret (.inr f))
  | .inl message =>
    let afterKMS : kmsState × GoStep (Message ⊕ Message × Err) :=
      if assocContains message.messageAttributes AttributeNameKMSKey ∧ opts.kmsKeyID ≠ "" then
        match env.unmarshalEncryptedEvent message.body with
        | .error e => (kst, .ret (.inr (message, e)))
        | .ok ee =>
          match kmsClient.decrypt env opts kst now ee with
          | (kst, .panicked m) => (kst, .panicked m)
          | (kst, .err e) => (kst, .ret (.inr (message, e)))
          | (kst, .ok decrypted) =>
            (kst, .ret (.inl { message with
                body := decrypted,
                messageAttributes :=
                  assocErase message.messageAttributes AttributeNameKMSKey }))
      else (kst, .ret (.inl message))
    match afterKMS with
    | (kst, .panicked m) => (kst, .panicked m)
    | (kst, .ret (.inr f)) => (kst, .ret (.inr f))
    | (kst, .ret (.inl message)) =>
      if assocContains message.messageAttributes AttributeCompression then
        match decompressData env message.body with
        | .ok decompressed =>
          (kst, .ret (.inl { message with
              body := decompressed,
              messageAttributes :=
                assocErase message.messageAttributes AttributeCompression }))
        | .error e => (kst, .ret (.inr (message, e)))
      else (kst, .ret (.inl message))

/-- The loop of `Client.ReceiveMessages` over the fetched messages,
collecting successful and failed entries in order (a Go panic aborts the
whole call). -/
def resolveMessages (env : Env) (opts : clientOpts) (store : S3Store) (kst : kmsState)
    (now : Nat) : List Message → kmsState × GoStep ReceiveMessagesResult
  | [] => (kst, .ret ⟨[], []⟩)
  | message :: rest =>
    match resolveMessage env opts store kst now message with
    | (kst, .panicked m) => (kst, .panicked m)
    | (kst, .ret out) =>
      match resolveMessages env opts store kst now rest with
      | (kst, .panicked m) => (kst, .panicked m)
      | (kst, .ret res) =>
        (kst,
          .ret (match out with
            | .inl msg => ⟨msg :: res.successful, res.failed⟩
            | .inr f => ⟨res.successful, f :: res.failed⟩))

/-- `Client.ReceiveMessages`: poll the queue and resolve every fetched
message. -/
def Client.ReceiveMessages (env : Env) (opts : clientOpts) (st : ClientState) (now : Nat)
    (queueName : String) : ClientState × GoVal ReceiveMessagesResult :=
  match sqsClient.receiveMessage env st.queueCache queueName with
  | (qc, .panicked m) => ({ st with queueCache := qc }, .panicked m)
  | (qc, .err e) => ({ st with queueCache := qc }, .err e)
  | (qc, .ok messages) =>
    match resolveMessages env opts st.store st.kms now messages with
    | (kst, .panicked m) => ({ st with queueCache := qc, kms := kst }, .panicked m)
    | (kst, .ret res) => ({ st with queueCache := qc, kms := kst }, .ok res)

/-! ## A concrete faithful environment

Simple computable stand-ins for the external collaborators, satisfying the
faithfulness laws the theorems below assume: identity compression and
base64, a constant data key, identity AES-GCM, and length-prefix
serialisation for the two JSON envelopes. -/



/-- Length-prefix encoding of a byte string. -/
def lpEncode (xs : Bytes) : Bytes := xs.length :: xs

/-- Split a length-prefixed byte string into the prefixed part and the rest. -/
def lpSplit : Bytes → Option (Bytes × Bytes)
  | [] => none
  | n :: rest => if n ≤ rest.length then some (rest.take n, rest.drop n) else none


/-- Self-delimiting encoding of an optional byte string. -/
def optEnc : Option Bytes → Bytes
  | none => [0]
  | some xs => 1 :: lpEncode xs

/-- Decoder for `optEnc`, returning the remainder of the input. -/
def optDec : Bytes → Option (Option Bytes × Bytes)
  | 0 :: rest => some (none, rest)
  | 1 :: rest => (lpSplit rest).map (fun p => (some p.1, p.2))
  | _ => none



/-- Concrete serialisation of an `encryptedEvent`. -/
def eeMarshal (e : encryptedEvent) : Bytes :=
  lpEncode e.encryptedEncryptionKey ++ (lpEncode (strBytes e.keyId) ++ e.payload)

/-- Concrete deserialisation of an `encryptedEvent`. -/
def eeUnmarshal (b : Bytes) : Except Err encryptedEvent :=
  match lpSplit b with
  | none => .error (.ext "json: invalid encryptedEvent")
  | some (key, rest) =>
    match lpSplit rest with
    | none => .error (.ext "json: invalid encryptedEvent")
    | some (kid, payload) => .ok ⟨key, bytesStr kid, payload⟩


/-- Concrete serialisation of a `fileEvent`. -/
def feMarshal (f : fileEvent) : Bytes :=
  optEnc (f.size.map (fun n => [n])) ++
    (optEnc (f.bucket.map strBytes) ++ optEnc (f.filename.map strBytes))

/-- Concrete deserialisation of a `fileEvent`. -/
def feUnmarshal (b : Bytes) : Except Err fileEvent :=
  match optDec b with
  | none => .error (.ext "json: invalid fileEvent")
  | some (sz, rest) =>
    match optDec rest with
    | none => .error (.ext "json: invalid fileEvent")
    | some (bu, rest) =>
      match optDec rest with
      | none => .error (.ext "json: invalid fileEvent")
      | some (fn, _) =>
        .ok ⟨sz.map (fun l => l.headD 0), bu.map bytesStr, fn.map bytesStr⟩




/-- A concrete faithful environment used to instantiate the theorems. -/
def goodEnv : Env where
  gzipCompress := fun b => .ok b
  gunzip := fun b => .ok b
  base64Encode := id
  base64Decode := fun b => .ok b
  md5Sum := id
  generateDataKeyExt := fun k => .ok ⟨List.replicate 32 0, [7], k⟩
  decryptExt := fun _ => .ok (List.replicate 32 0)
  gcmSeal := fun _ _ d => d
  gcmOpen := fun _ _ c => .ok c
  nonce := List.replicate 12 0
  marshalEncryptedEvent := fun e => .ok (eeMarshal e)
  unmarshalEncryptedEvent := eeUnmarshal
  marshalFileEvent := fun f => .ok (feMarshal f)
  unmarshalFileEvent := feUnmarshal
  uuid := "u"
  putObjectExt := none
  sendMessageExt := fun _ => none
  getQueueUrlExt := fun _ => (some (some "url"), none)
  sendMessageBatchExt := fun _ entries => (some ⟨entries.map (fun e => e.id), []⟩, none)
  receiveMessageExt := fun _ => (some [], none)

/-- The encrypted envelope with a too-short payload used to exercise the
slice-bounds panic. -/
def eeShort : encryptedEvent := ⟨[7], "k", []⟩

/-- A received message carrying the KMS marker and the envelope `eeShort`. -/
def msgShort : Message :=
  ⟨eeMarshal eeShort, [(AttributeNameKMSKey, ⟨"String", "k"⟩)]⟩

/-- `goodEnv` with the queue returning `msgShort`. -/
def envShort : Env :=
  { goodEnv with receiveMessageExt := fun _ => (some [msgShort], none) }

/-- `goodEnv` with the queue returning the plain message `⟨[1, 2, 3], []⟩`
(as deposited by a no-stage send), used for the round-trip witness. -/
def envC1 : Env :=
  { goodEnv with receiveMessageExt := fun _ => (some [⟨[1, 2, 3], []⟩], none) }

/-- `N` sequential `kmsClient.encrypt` calls with the same key id, at one
time instant, collecting the produced envelopes in call order. -/
def encryptIter (env : Env) (opts : clientOpts) (keyId : String) (payload : Bytes)
    (t : Nat) : Nat → kmsState → kmsState × List (Except Err encryptedEvent)
  | 0, st => (st, [])
  | n + 1, st =>
    match kmsClient.encrypt env opts st t keyId payload with
    | (st, r) =>
      match encryptIter env opts keyId payload t n st with
      | (st, rs) => (st, r :: rs)

/-- The descriptor of a one-byte-over-the-limit payload uploaded to bucket
"b" under uuid "u". -/
def feBig : fileEvent :=
  ⟨some (List.replicate (maxMessageSize + 1) (0 : Nat)).length, some "b", some "u"⟩

/-- Ten caller-supplied message attributes. -/
def attrs10 : AttrMap :=
  [("a0", ⟨"String", "x"⟩), ("a1", ⟨"String", "x"⟩), ("a2", ⟨"String", "x"⟩),
   ("a3", ⟨"String", "x"⟩), ("a4", ⟨"String", "x"⟩), ("a5", ⟨"String", "x"⟩),
   ("a6", ⟨"String", "x"⟩), ("a7", ⟨"String", "x"⟩), ("a8", ⟨"String", "x"⟩),
   ("a9", ⟨"String", "x"⟩)]

/-- Eleven caller-supplied message attributes. -/
def attrs11 : AttrMap := attrs10 ++ [("b0", ⟨"String", "x"⟩)]

/-- A received message carrying the S3 marker (its body would be a
descriptor) used against a client with no S3 bucket configured. -/
def msgMarked : Message := ⟨[9], [(AttributeNameS3Bucket, ⟨"String", "b"⟩)]⟩

/-- `goodEnv` with the queue returning `msgMarked`. -/
def envMarked : Env :=
  { goodEnv with receiveMessageExt := fun _ => (some [msgMarked], none) }

/-- A received message using no stage. -/
def maPlain : Message := ⟨[9], []⟩

/-- `goodEnv` with the queue returning `maPlain`. -/
def envPlain : Env :=
  { goodEnv with receiveMessageExt := fun _ => (some [maPlain], none) }

/-- A small S3 descriptor pointing at bucket "b", key "u". -/
def feSm : fileEvent := ⟨some 1, some "b", some "u"⟩

/-- A well-formed encrypted envelope: a 12-byte nonce followed by one sealed
byte. -/
def eeGood : encryptedEvent := ⟨[7], "k", List.replicate 12 0 ++ [5]⟩

/-- `goodEnv` with every outbound-stage collaborator failing: gzip, KMS
`GenerateDataKey` and S3 `PutObject`. -/
def envFail : Env :=
  { goodEnv with
    gzipCompress := fun _ => .error (.ext "gz"),
    generateDataKeyExt := fun _ => .error (.ext "kms"),
    putObjectExt := some (.ext "s3") }

/-- `goodEnv` with `GetQueueUrl` failing with a nil output pointer. -/
def envNilGQU : Env :=
  { goodEnv with getQueueUrlExt := fun _ => (none, some (.ext "boom")) }

/-- `goodEnv` with `ReceiveMessage` failing with a nil output pointer. -/
def envNilRecv : Env :=
  { goodEnv with receiveMessageExt := fun _ => (none, some (.ext "boom")) }

/-- `goodEnv` with `GetQueueUrl` failing but returning a non-nil output (the
usual AWS SDK behaviour). -/
def envErrGQU : Env :=
  { goodEnv with getQueueUrlExt := fun _ => (some (some "url"), some (.ext "boom")) }

/-- `goodEnv` with `SendMessageBatch` failing with a nil output pointer. -/
def envNilBatch : Env :=
  { goodEnv with sendMessageBatchExt := fun _ _ => (none, some (.ext "boom")) }


/-! ## Helper lemmas -/

theorem bytesStr_strBytes (s : String) : bytesStr (strBytes s) = s := by
  cases s with
  | mk data =>
    simp [bytesStr, strBytes, List.map_map, Function.comp_def, Char.ofNat_toNat]

section AssocLemmas

variable {κ α : Type} [DecidableEq κ]

theorem assocLookup_append_left {l₁ l₂ : List (κ × α)} {k : κ} {v : α}
    (h : assocLookup l₁ k = some v) : assocLookup (l₁ ++ l₂) k = some v := by
  induction l₁ with
  | nil => simp [assocLookup] at h
  | cons hd tl ih =>
    obtain ⟨a, b⟩ := hd
    simp only [assocLookup, List.cons_append] at h ⊢
    by_cases he : a = k
    · rwa [if_pos he] at h ⊢
    · rw [if_neg he] at h ⊢
      exact ih h

theorem assocLookup_append_right {l₁ l₂ : List (κ × α)} {k : κ}
    (h : assocLookup l₁ k = none) : assocLookup (l₁ ++ l₂) k = assocLookup l₂ k := by
  induction l₁ with
  | nil => rfl
  | cons hd tl ih =>
    obtain ⟨a, b⟩ := hd
    simp only [assocLookup, List.cons_append] at h ⊢
    by_cases he : a = k
    · rw [if_pos he] at h; exact absurd h (by simp)
    · rw [if_neg he] at h ⊢
      exact ih h

theorem assocSet_of_not_mem {l : List (κ × α)} {k : κ} (v : α)
    (h : assocLookup l k = none) : assocSet l k v = l ++ [(k, v)] := by
  simp [assocSet, assocContains, h]

theorem assocErase_append_singleton {l : List (κ × α)} {k : κ} {v : α} :
    assocErase (l ++ [(k, v)]) k = assocErase l k := by
  simp [assocErase, List.filter_append]

theorem assocErase_of_not_mem {l : List (κ × α)} {k : κ}
    (h : assocLookup l k = none) : assocErase l k = l := by
  induction l with
  | nil => rfl
  | cons hd tl ih =>
    obtain ⟨a, b⟩ := hd
    simp only [assocLookup] at h
    by_cases he : a = k
    · rw [if_pos he] at h; exact absurd h (by simp)
    · rw [if_neg he] at h
      have h2 := ih h
      simp only [assocErase, List.filter_cons] at h2 ⊢
      simp [he, h2]

theorem assocLookup_erase_ne {l : List (κ × α)} {k k' : κ}
    (h : k' ≠ k) : assocLookup (assocErase l k) k' = assocLookup l k' := by
  induction l with
  | nil => rfl
  | cons hd tl ih =>
    obtain ⟨a, b⟩ := hd
    by_cases he : a = k
    · subst he
      have h1 : assocErase ((a, b) :: tl) a = assocErase tl a := by
        simp [assocErase, List.filter_cons]
      rw [h1, ih]
      simp only [assocLookup]
      rw [if_neg (fun hh : a = k' => h hh.symm)]
    · have h1 : assocErase ((a, b) :: tl) k = (a, b) :: assocErase tl k := by
        simp [assocErase, List.filter_cons, he]
      rw [h1]
      simp only [assocLookup]
      split
      · rfl
      · exact ih

theorem assocLookup_map_set {l : List (κ × α)} {k : κ} {v : α}
    (hc : assocContains l k = true) :
    assocLookup (l.map (fun p => if p.1 = k then (k, v) else p)) k = some v := by
  induction l with
  | nil => simp [assocContains, assocLookup] at hc
  | cons hd tl ih =>
    obtain ⟨a, b⟩ := hd
    by_cases he : a = k
    · subst he
      simp only [List.map_cons, if_true]
      simp only [assocLookup]
      simp
    · have hc' : assocContains tl k = true := by
        simpa [assocContains, assocLookup, he] using hc
      simp only [List.map_cons]
      rw [if_neg he]
      simp only [assocLookup, if_neg he]
      exact ih hc'

theorem assocLookup_map_replace_ne {l : List (κ × α)} {k k' : κ} (v : α) (h : k' ≠ k) :
    assocLookup (l.map (fun p => if p.1 = k then (k, v) else p)) k' = assocLookup l k' := by
  induction l with
  | nil => rfl
  | cons hd tl ih =>
    obtain ⟨a, b⟩ := hd
    by_cases he : a = k
    · subst he
      simp only [List.map_cons, if_pos rfl]
      simp only [assocLookup]
      rw [if_neg (fun hh : a = k' => h hh.symm), if_neg (fun hh : a = k' => h hh.symm)]
      exact ih
    · simp only [List.map_cons]
      rw [if_neg he]
      simp only [assocLookup]
      split
      · rfl
      · exact ih

theorem assocLookup_set_ne {l : List (κ × α)} {k k' : κ} {v : α} (h : k' ≠ k) :
    assocLookup (assocSet l k v) k' = assocLookup l k' := by
  unfold assocSet
  split
  · exact assocLookup_map_replace_ne v h
  · cases hlk : assocLookup l k' with
    | some w => exact assocLookup_append_left hlk
    | none =>
      rw [assocLookup_append_right hlk]
      simp only [assocLookup]
      rw [if_neg (fun hh : k = k' => h hh.symm)]

theorem assocLookup_set_self {l : List (κ × α)} {k : κ} {v : α} :
    assocLookup (assocSet l k v) k = some v := by
  unfold assocSet
  split
  · exact assocLookup_map_set ‹_›
  · rename_i hc
    have hn : assocLookup l k = none := by
      rw [Bool.not_eq_true] at hc
      simpa [assocContains] using congrArg (fun b => b) hc
    rw [assocLookup_append_right hn]
    simp [assocLookup]


end AssocLemmas

theorem take_len_append {α : Type} (l₁ l₂ : List α) : (l₁ ++ l₂).take l₁.length = l₁ := by
  induction l₁ with
  | nil => rfl
  | cons hd tl ih => simp [ih]

theorem drop_len_append {α : Type} (l₁ l₂ : List α) : (l₁ ++ l₂).drop l₁.length = l₂ := by
  induction l₁ with
  | nil => rfl
  | cons hd tl ih => simp [ih]

theorem lpSplit_lpEncode_append (xs ys : Bytes) :
    lpSplit (lpEncode xs ++ ys) = some (xs, ys) := by
  simp [lpEncode, lpSplit, take_len_append, drop_len_append, List.length_append]

theorem optDec_optEnc_append (x : Option Bytes) (rest : Bytes) :
    optDec (optEnc x ++ rest) = some (x, rest) := by
  cases x with
  | none => rfl
  | some xs => simp [optEnc, optDec, lpSplit_lpEncode_append]

theorem optDec_optEnc (x : Option Bytes) : optDec (optEnc x) = some (x, []) := by
  have h := optDec_optEnc_append x []
  simpa using h

theorem eeUnmarshal_eeMarshal (e : encryptedEvent) :
    eeUnmarshal (eeMarshal e) = .ok e := by
  simp [eeMarshal, eeUnmarshal, lpSplit_lpEncode_append, bytesStr_strBytes]

theorem feUnmarshal_feMarshal (f : fileEvent) :
    feUnmarshal (feMarshal f) = .ok f := by
  obtain ⟨sz, bu, fn⟩ := f
  simp only [feMarshal, feUnmarshal, List.append_assoc, optDec_optEnc_append]
  cases sz <;> cases bu <;> cases fn <;> simp [optDec_optEnc, bytesStr_strBytes]


/-! ### Association-list membership lemmas -/

section AssocMem

variable {κ α : Type} [DecidableEq κ]

theorem ne_of_assocLookup_none {l : List (κ × α)} {k : κ}
    (h : assocLookup l k = none) : ∀ e ∈ l, e.1 ≠ k := by
  induction l with
  | nil => simp
  | cons hd tl ih =>
    obtain ⟨a, b⟩ := hd
    simp only [assocLookup] at h
    by_cases he : a = k
    · rw [if_pos he] at h; simp at h
    · rw [if_neg he] at h
      intro e hm
      rcases List.mem_cons.mp hm with rfl | hm
      · simpa using he
      · exact ih h e hm

theorem mem_assocSet {l : List (κ × α)} {k : κ} {v : α} {e : κ × α}
    (h : e ∈ assocSet l k v) : e = (k, v) ∨ (e ∈ l ∧ e.1 ≠ k) := by
  unfold assocSet at h
  split at h
  · obtain ⟨p, hp, he⟩ := List.mem_map.mp h
    by_cases hpk : p.1 = k
    · left; rw [← he]; simp [hpk]
    · right
      rw [← he]
      rw [if_neg hpk]
      exact ⟨hp, hpk⟩
  · rename_i hnc
    rcases List.mem_append.mp h with h | h
    · have hn : assocLookup l k = none := by
        cases hlk : assocLookup l k with
        | none => rfl
        | some w => rw [assocContains, hlk] at hnc; simp at hnc
      exact Or.inr ⟨h, ne_of_assocLookup_none hn e h⟩
    · left; simpa using h

theorem key_of_mem_assocSet {l : List (κ × α)} {k : κ} {v : α} {e : κ × α}
    (h : e ∈ assocSet l k v) (hk : e.1 = k) : e = (k, v) := by
  rcases mem_assocSet h with h | ⟨_, hne⟩
  · exact h
  · exact absurd hk hne

theorem assocLookup_filter_of_keep {l : List (κ × α)} {k : κ} {v : α} (p : κ × α → Bool)
    (hl : assocLookup l k = some v) (hp : p (k, v) = true) :
    assocLookup (l.filter p) k = some v := by
  induction l with
  | nil => simp [assocLookup] at hl
  | cons hd tl ih =>
    obtain ⟨a, b⟩ := hd
    simp only [assocLookup] at hl
    by_cases he : a = k
    · rw [if_pos he] at hl
      subst he
      have hb : b = v := by simpa using hl
      subst hb
      simp only [List.filter_cons, hp]
      simp [assocLookup]
    · rw [if_neg he] at hl
      simp only [List.filter_cons]
      split
      · simp only [assocLookup, if_neg he]
        exact ih hl
      · exact ih hl

theorem assocLookup_filter_none {l : List (κ × α)} {k : κ} (p : κ × α → Bool)
    (h : ∀ e ∈ l, e.1 = k → p e = false) :
    assocLookup (l.filter p) k = none := by
  induction l with
  | nil => rfl
  | cons hd tl ih =>
    obtain ⟨a, b⟩ := hd
    simp only [List.filter_cons]
    split
    · rename_i hpab
      have he : a ≠ k := by
        intro hk
        subst hk
        have := h (a, b) (by simp) rfl
        rw [this] at hpab
        cases hpab
      simp only [assocLookup, if_neg he]
      exact ih (fun e hm hk => h e (List.mem_cons_of_mem _ hm) hk)
    · exact ih (fun e hm hk => h e (List.mem_cons_of_mem _ hm) hk)

end AssocMem

/-! ### Key-cache lemmas -/

theorem mem_clean {kc : keyCache} {now : Nat} {e : Bytes × cacheEntry}
    (h : e ∈ (kc.clean now).entries) :
    e ∈ kc.entries ∧ now ≤ e.2.entered + kc.expirationPeriod := by
  unfold keyCache.clean at h
  simp only [List.mem_filter, Bool.not_eq_eq_eq_not, Bool.not_true,
    decide_eq_false_iff_not, not_lt] at h
  exact h


/-! ### Inversion lemmas for the SQS client -/

theorem getQueueURL_ok_lookup {env : Env} {qc qc' : QueueCache} {queueName url : String}
    (h : sqsClient.getQueueURL env qc queueName = (qc', .ok url)) :
    assocLookup qc' queueName = some url := by
  unfold sqsClient.getQueueURL at h
  cases hl : assocLookup qc queueName with
  | some v =>
    rw [hl] at h
    injection h with h1 h2
    subst h1
    injection h2 with h3
    rw [hl, h3]
  | none =>
    rw [hl] at h
    rcases hext : env.getQueueUrlExt queueName with ⟨out, err⟩
    rw [hext] at h
    cases out with
    | none => simp at h
    | some qu =>
      cases err with
      | some e => simp at h
      | none =>
        cases qu with
        | none => simp at h
        | some u =>
          injection h with h1 h2
          injection h2 with h3
          subst h1 h3
          exact assocLookup_set_self

theorem sendMessage_ok_inversion {env : Env} {qc qc' : QueueCache}
    {queue queue' : List Message} {queueName : String} {event : sqsSendEvent}
    (h : sqsClient.sendMessage env qc queue queueName event =
      (qc', queue', GoVal.ok ())) :
    queue' = queue ++ [⟨event.payload, event.messageAttributes⟩] ∧
    ∃ url, assocLookup qc' queueName = some url := by
  unfold sqsClient.sendMessage at h
  split at h
  · simp at h
  · split at h
    · simp at h
    · rcases hg : sqsClient.getQueueURL env qc queueName with ⟨qc₂, rg⟩
      rw [hg] at h
      cases rg with
      | panicked msg => simp at h
      | err e => simp at h
      | ok url =>
        cases hse : env.sendMessageExt ⟨event.payload, event.messageAttributes⟩ with
        | none =>
          simp only [hse, Prod.mk.injEq] at h
          obtain ⟨h1, h2, -⟩ := h
          subst h1
          exact ⟨h2.symm, url, getQueueURL_ok_lookup hg⟩
        | some e =>
          simp [hse] at h

theorem resolveMessage_of_s3_marker {env : Env} {opts : clientOpts} {store : S3Store}
    {kst : kmsState} {now : Nat} {m : Message} {fe : fileEvent} {p2 : Bytes} {a2 : AttrMap}
    (hmark : (assocLookup m.messageAttributes AttributeNameS3Bucket).isSome = true)
    (hbucket : opts.s3Bucket ≠ "")
    (hunm : env.unmarshalFileEvent m.body = .ok fe)
    (hget : s3Client.getObject store fe = .ok p2)
    (hattr : assocErase m.messageAttributes AttributeNameS3Bucket = a2)
    (ha2 : assocLookup a2 AttributeNameS3Bucket = none) :
    resolveMessage env opts store kst now m =
      resolveMessage env opts store kst now ⟨p2, a2⟩ := by
  conv_lhs => rw [resolveMessage]
  conv_rhs => rw [resolveMessage]
  simp only [assocContains, hmark, hbucket, hunm, hget, hattr, ha2, ne_eq,
    not_false_iff, and_true, if_true, Option.isSome_none, Bool.false_eq_true,
    false_and, if_false]

theorem receive_singleton {env : Env} {opts : clientOpts} {st1 : ClientState}
    {now2 : Nat} {queueName url : String} {m out : Message} {kstF : kmsState}
    (hqc : assocLookup st1.queueCache queueName = some url)
    (hrecv : env.receiveMessageExt queueName = (some [m], none))
    (hres : resolveMessage env opts st1.store st1.kms now2 m =
      (kstF, .ret (.inl out))) :
    ∃ st2, Client.ReceiveMessages env opts st1 now2 queueName =
      (st2, .ok ⟨[out], []⟩) := by
  have hsnd : (Client.ReceiveMessages env opts st1 now2 queueName).2 =
      .ok ⟨[out], []⟩ := by
    simp only [Client.ReceiveMessages, sqsClient.receiveMessage,
      sqsClient.getQueueURL, hqc, hrecv, resolveMessages, hres]
  exact ⟨(Client.ReceiveMessages env opts st1 now2 queueName).1, by rw [← hsnd]⟩

/-! ## Claims -/

/-- **C6**: every `keyCache` `get` and `put` first evicts all entries whose
age exceeds `expirationPeriod` relative to the clock at call time, so after
any `get` or `put` no entry older than `expirationPeriod` remains;
consequently an entry inserted at time `T` is found by a `get` at any time
strictly before `T + expirationPeriod` and is absent at any time strictly
after `T + expirationPeriod`. -/
theorem C6_keyCache_eviction_and_expiry
    (kc : keyCache) (now T t₁ t₂ : Nat) (key pt ct : Bytes)
    (hbefore : t₁ < T + kc.expirationPeriod)
    (hafter : T + kc.expirationPeriod < t₂) :
    (∀ e ∈ (kc.put now key pt ct).entries, now ≤ e.2.entered + kc.expirationPeriod) ∧
    (∀ e ∈ ((kc.get now key).1).entries, now ≤ e.2.entered + kc.expirationPeriod) ∧
    ((kc.put T key pt ct).get t₁ key).2 = some ⟨pt, ct, T⟩ ∧
    ((kc.put T key pt ct).get t₂ key).2 = none := by
  refine ⟨?_, ?_, ?_, ?_⟩
  · intro e he
    simp only [keyCache.put] at he
    rcases mem_assocSet he with rfl | ⟨hm, _⟩
    · simp only [keyCache.clean]
      omega
    · exact (mem_clean hm).2
  · intro e he
    simp only [keyCache.get] at he
    exact (mem_clean he).2
  · simp only [keyCache.get, keyCache.put, keyCache.clean]
    apply assocLookup_filter_of_keep _ assocLookup_set_self
    simpa using Nat.not_lt.mpr (Nat.le_of_lt hbefore)
  · simp only [keyCache.get, keyCache.put, keyCache.clean]
    apply assocLookup_filter_none
    intro e hm hk
    have he := key_of_mem_assocSet hm hk
    rw [he]
    simpa using hafter

/-- Witness for C6: a cache with a five-tick expiration period; an entry
inserted at time 0 is present at time 4 and evicted at time 6. -/
theorem C6_keyCache_eviction_and_expiry_witness :
    (((⟨[], 5⟩ : keyCache).put 0 [1] [2] [3]).get 4 [1]).2 = some ⟨[2], [3], 0⟩ ∧
    (((⟨[], 5⟩ : keyCache).put 0 [1] [2] [3]).get 6 [1]).2 = none :=
  ⟨(C6_keyCache_eviction_and_expiry ⟨[], 5⟩ 0 0 4 6 [1] [2] [3]
      (by decide) (by decide)).2.2.1,
   (C6_keyCache_eviction_and_expiry ⟨[], 5⟩ 0 0 4 6 [1] [2] [3]
      (by decide) (by decide)).2.2.2⟩

/-- **C10**: if queue-URL resolution or the transport `SendMessageBatch`
call yields an error together with a nil output, `Client.SendMessageBatch`
dereferences the nil output (appending to `batchOutput.Failed`) and panics
instead of returning the error; the same nil-output dereference pattern
exists in `sqsClient.getQueueURL` and `sqsClient.receiveMessage`. -/
theorem C10_nil_output_dereference_panics
    (env₁ env₂ env₃ env₄ : Env) (opts : clientOpts) (now : Nat) (queueName url : String)
    (qc₁ qc₂ : QueueCache) (st₃ st₄ : ClientState) (b₃ b₄ : Batch)
    (e₁ e₂ e₃ e₄ : Err) (qu : Option String)
    (h1q : assocLookup qc₁ queueName = none)
    (h1e : env₁.getQueueUrlExt queueName = (none, some e₁))
    (h2q : assocLookup qc₂ queueName = some url)
    (h2e : env₂.receiveMessageExt queueName = (none, some e₂))
    (h3s : b₃.sent = false)
    (h3q : assocLookup st₃.queueCache queueName = none)
    (h3e : env₃.getQueueUrlExt queueName = (some qu, some e₃))
    (h4s : b₄.sent = false)
    (h4q : assocLookup st₄.queueCache queueName = some url)
    (h4e : ∀ entries, env₄.sendMessageBatchExt queueName entries = (none, some e₄)) :
    sqsClient.getQueueURL env₁ qc₁ queueName =
      (qc₁, .panicked "runtime error: invalid memory address or nil pointer dereference") ∧
    sqsClient.receiveMessage env₂ qc₂ queueName =
      (qc₂, .panicked "runtime error: invalid memory address or nil pointer dereference") ∧
    (∃ r, Client.SendMessageBatch env₃ opts st₃ now queueName b₃ =
      (r, .panicked "runtime error: invalid memory address or nil pointer dereference")) ∧
    (∃ r, Client.SendMessageBatch env₄ opts st₄ now queueName b₄ =
      (r, .panicked "runtime error: invalid memory address or nil pointer dereference")) := by
  refine ⟨?_, ?_, ?_, ?_⟩
  · simp [sqsClient.getQueueURL, h1q, h1e]
  · simp [sqsClient.receiveMessage, sqsClient.getQueueURL, h2q, h2e]
  · rcases hpe : processBatchEvents env₃ opts st₃.kms st₃.store now b₃.events with
      ⟨kst, store, entries, failed⟩
    have hsnd : (Client.SendMessageBatch env₃ opts st₃ now queueName b₃).2 =
        .panicked "runtime error: invalid memory address or nil pointer dereference" := by
      simp only [Client.SendMessageBatch, h3s, Bool.false_eq_true, if_false, hpe,
        sqsClient.sendMessageBatch, sqsClient.getQueueURL, h3q, h3e]
    exact ⟨(Client.SendMessageBatch env₃ opts st₃ now queueName b₃).1, by rw [← hsnd]⟩
  · rcases hpe : processBatchEvents env₄ opts st₄.kms st₄.store now b₄.events with
      ⟨kst, store, entries, failed⟩
    have hsnd : (Client.SendMessageBatch env₄ opts st₄ now queueName b₄).2 =
        .panicked "runtime error: invalid memory address or nil pointer dereference" := by
      simp only [Client.SendMessageBatch, h4s, Bool.false_eq_true, if_false, hpe,
        sqsClient.sendMessageBatch, sqsClient.getQueueURL, h4q, h4e]
    exact ⟨(Client.SendMessageBatch env₄ opts st₄ now queueName b₄).1, by rw [← hsnd]⟩

/-- Witness for C10: a fresh batch against environments whose external calls
return nil outputs alongside errors. -/
theorem C10_nil_output_dereference_panics_witness :
    sqsClient.getQueueURL envNilGQU [] "q" =
      ([], .panicked "runtime error: invalid memory address or nil pointer dereference") ∧
    sqsClient.receiveMessage envNilRecv [("q", "url")] "q" =
      ([("q", "url")],
        .panicked "runtime error: invalid memory address or nil pointer dereference") ∧
    (∃ r, Client.SendMessageBatch envErrGQU ⟨"", false, "", false, false, 0⟩
      ⟨⟨none, 0, 0⟩, [], [], [], 0⟩ 0 "q" NewBatch =
      (r, .panicked "runtime error: invalid memory address or nil pointer dereference")) ∧
    (∃ r, Client.SendMessageBatch envNilBatch ⟨"", false, "", false, false, 0⟩
      ⟨⟨none, 0, 0⟩, [], [("q", "url")], [], 0⟩ 0 "q" NewBatch =
      (r, .panicked "runtime error: invalid memory address or nil pointer dereference")) :=
  C10_nil_output_dereference_panics envNilGQU envNilRecv envErrGQU envNilBatch
    ⟨"", false, "", false, false, 0⟩ 0 "q" "url"
    [] [("q", "url")] ⟨⟨none, 0, 0⟩, [], [], [], 0⟩ ⟨⟨none, 0, 0⟩, [], [("q", "url")], [], 0⟩
    NewBatch NewBatch (.ext "boom") (.ext "boom") (.ext "boom") (.ext "boom") (some "url")
    rfl rfl rfl rfl rfl rfl rfl rfl rfl (fun _ => rfl)

/-- **C1**: round trip.  For every payload and every subset of the three
stages {compression, encryption, blob-offload} enabled in the client
configuration (with the key cache disabled — a pure latency optimisation),
if the outbound preparation `SendMessageWithAttributes` succeeds and put the
message `m` on the (faithful) queue, then `ReceiveMessages` — through the
same faithful S3 and KMS collaborators — yields exactly the original
payload and the original attributes (which carried no stage markers), with
all stage-marker attributes removed. -/
theorem C1_round_trip
    (env : Env) (opts : clientOpts) (st st1 : ClientState) (now now2 : Nat)
    (queueName : String) (payload : Bytes) (attrs : AttrMap) (m : Message)
    (hcacheOpt : opts.kmsKeyCacheEnabled = false)
    (hcacheSt : st.kms.cache = none)
    (ha1 : assocLookup attrs AttributeNameS3Bucket = none)
    (ha2 : assocLookup attrs AttributeNameKMSKey = none)
    (ha3 : assocLookup attrs AttributeCompression = none)
    (Hgz : ∀ b, ∃ c, env.gzipCompress b = .ok c ∧ env.gunzip c = .ok b)
    (Hb64 : ∀ b, env.base64Decode (env.base64Encode b) = .ok b)
    (Hgen : ∀ k, ∃ g : genOut, env.generateDataKeyExt k = .ok g ∧
      g.plaintext.length = 32 ∧ env.decryptExt g.ciphertextBlob = .ok g.plaintext)
    (Hgcm : ∀ key n d, env.gcmOpen key n (env.gcmSeal key n d) = .ok d)
    (Hnonce : env.nonce.length = 12)
    (Hee : ∀ e, ∃ mm, env.marshalEncryptedEvent e = .ok mm ∧
      env.unmarshalEncryptedEvent mm = .ok e)
    (Hfe : ∀ f, ∃ mm, env.marshalFileEvent f = .ok mm ∧
      env.unmarshalFileEvent mm = .ok f)
    (Hprep : Client.SendMessageWithAttributes env opts st now queueName payload attrs =
      (st1, .ok ()))
    (Hqueue : st1.queue = st.queue ++ [m])
    (Hrecv : env.receiveMessageExt queueName = (some [m], none)) :
    ∃ st2, Client.ReceiveMessages env opts st1 now2 queueName =
      (st2, .ok ⟨[⟨payload, attrs⟩], []⟩) := by
  have hKS : AttributeNameKMSKey ≠ AttributeNameS3Bucket := by decide
  have hCS : AttributeCompression ≠ AttributeNameS3Bucket := by decide
  have hCK : AttributeCompression ≠ AttributeNameKMSKey := by decide
  -- the common tail: blob-offload decision, transport send, and the whole
  -- receive side, given the event produced by the first two stages
  have MAIN : ∀ (pp1 p2 : Bytes) (aa1 a2 : AttrMap) (kst1 kst2 : kmsState),
      assocLookup a2 AttributeNameS3Bucket = none →
      (if opts.compressionEnabled then compress env ⟨payload, attrs, ""⟩
       else (⟨payload, attrs, ""⟩, none)) = (⟨pp1, aa1, ""⟩, none) →
      (if opts.kmsKeyID ≠ "" then Client.encrypt env opts st.kms now ⟨pp1, aa1, ""⟩
       else (st.kms, ⟨pp1, aa1, ""⟩, none)) = (kst1, ⟨p2, a2, ""⟩, none) →
      (∀ store₀, resolveMessage env opts store₀ kst1 now2 ⟨p2, a2⟩ =
        (kst2, .ret (.inl ⟨payload, attrs⟩))) →
      ∃ st2, Client.ReceiveMessages env opts st1 now2 queueName =
        (st2, .ok ⟨[⟨payload, attrs⟩], []⟩) := by
    intro pp1 p2 aa1 a2 kst1 kst2 hs3a2 hstage1 hstage2 hres
    simp only [Client.SendMessageWithAttributes] at Hprep
    rw [hstage1] at Hprep
    simp only [] at Hprep
    rw [hstage2] at Hprep
    simp only [] at Hprep
    by_cases hoffc : (opts.forceS3 = true ∨
        (⟨p2, a2, ""⟩ : sqsSendEvent).size > maxMessageSize) ∧ opts.s3Bucket ≠ ""
    · -- the offload stage fired
      rw [if_pos hoffc] at Hprep
      cases hput : env.putObjectExt with
      | some e =>
        have hup : Client.uploadToS3 env opts st.store ⟨p2, a2, ""⟩ =
            (st.store, ⟨p2, a2, ""⟩, some (.wrap "error puting object to S3" e)) := by
          simp [Client.uploadToS3, s3Client.putObject, hput]
        rw [hup] at Hprep
        simp at Hprep
      | none =>
        obtain ⟨mfe, hmfe, humfe⟩ :=
          Hfe ⟨some p2.length, some opts.s3Bucket, some env.uuid⟩
        have hup : Client.uploadToS3 env opts st.store ⟨p2, a2, ""⟩ =
            (assocSet st.store (opts.s3Bucket, env.uuid) p2,
             ⟨mfe, a2 ++ [(AttributeNameS3Bucket, ⟨"String", opts.s3Bucket⟩)], ""⟩,
             none) := by
          simp [Client.uploadToS3, s3Client.putObject, hput, hmfe,
            assocSet_of_not_mem _ hs3a2]
        rw [hup] at Hprep
        simp only [] at Hprep
        rcases hsm : sqsClient.sendMessage env st.queueCache st.queue queueName
            ⟨mfe, a2 ++ [(AttributeNameS3Bucket, ⟨"String", opts.s3Bucket⟩)], ""⟩ with
          ⟨qc', queue', r⟩
        rw [hsm] at Hprep
        simp only [] at Hprep
        cases r with
        | err e => simp at Hprep
        | panicked mm => simp at Hprep
        | ok u =>
          have hst1 : st1 = ⟨kst1, assocSet st.store (opts.s3Bucket, env.uuid) p2,
              qc', queue', st.sendBatchCalls⟩ := by
            have hfst := congrArg Prod.fst Hprep
            simpa using hfst.symm
          obtain ⟨hq', url, hurl⟩ := sendMessage_ok_inversion hsm
          have h2 : st.queue ++ [m] = st.queue ++
              [(⟨mfe, a2 ++ [(AttributeNameS3Bucket, ⟨"String", opts.s3Bucket⟩)]⟩ :
                Message)] := by
            rw [← Hqueue, hst1]
            exact hq'
          have hm : m =
              ⟨mfe, a2 ++ [(AttributeNameS3Bucket, ⟨"String", opts.s3Bucket⟩)]⟩ := by
            have h3 := List.append_cancel_left h2
            injection h3 with h4 h5
          subst hm
          have hmark : (assocLookup
              (a2 ++ [(AttributeNameS3Bucket, ⟨"String", opts.s3Bucket⟩)])
              AttributeNameS3Bucket).isSome = true := by
            rw [assocLookup_append_right hs3a2]
            simp [assocLookup]
          have herase : assocErase
              (a2 ++ [(AttributeNameS3Bucket, ⟨"String", opts.s3Bucket⟩)])
              AttributeNameS3Bucket = a2 := by
            rw [assocErase_append_singleton, assocErase_of_not_mem hs3a2]
          have hget : s3Client.getObject
              (assocSet st.store (opts.s3Bucket, env.uuid) p2)
              ⟨some p2.length, some opts.s3Bucket, some env.uuid⟩ = .ok p2 := by
            simp [s3Client.getObject, assocLookup_set_self]
          have hres2 : resolveMessage env opts st1.store st1.kms now2
              ⟨mfe, a2 ++ [(AttributeNameS3Bucket, ⟨"String", opts.s3Bucket⟩)]⟩ =
              (kst2, .ret (.inl ⟨payload, attrs⟩)) := by
            have hstoreF : st1.store =
                assocSet st.store (opts.s3Bucket, env.uuid) p2 := by rw [hst1]
            have hkmsF : st1.kms = kst1 := by rw [hst1]
            rw [hstoreF, hkmsF,
              resolveMessage_of_s3_marker hmark hoffc.2 humfe hget herase hs3a2]
            exact hres _
          exact receive_singleton (by rw [hst1]; exact hurl) Hrecv hres2
    · -- no offload
      rw [if_neg hoffc] at Hprep
      simp only [] at Hprep
      rcases hsm : sqsClient.sendMessage env st.queueCache st.queue queueName
          ⟨p2, a2, ""⟩ with ⟨qc', queue', r⟩
      rw [hsm] at Hprep
      simp only [] at Hprep
      cases r with
      | err e => simp at Hprep
      | panicked mm => simp at Hprep
      | ok u =>
        have hst1 : st1 = ⟨kst1, st.store, qc', queue', st.sendBatchCalls⟩ := by
          have hfst := congrArg Prod.fst Hprep
          simpa using hfst.symm
        obtain ⟨hq', url, hurl⟩ := sendMessage_ok_inversion hsm
        have h2 : st.queue ++ [m] = st.queue ++ [(⟨p2, a2⟩ : Message)] := by
          rw [← Hqueue, hst1]
          exact hq'
        have hm : m = ⟨p2, a2⟩ := by
          have h3 := List.append_cancel_left h2
          injection h3 with h4 h5
        subst hm
        have hres2 : resolveMessage env opts st1.store st1.kms now2 ⟨p2, a2⟩ =
            (kst2, .ret (.inl ⟨payload, attrs⟩)) := by
          have hkmsF : st1.kms = kst1 := by rw [hst1]
          rw [hkmsF]
          exact hres st1.store
        exact receive_singleton (by rw [hst1]; exact hurl) Hrecv hres2
  by_cases hcomp : opts.compressionEnabled = true
  · by_cases hkms : opts.kmsKeyID = ""
    · -- compression on, encryption off
      obtain ⟨c, hgzc, hgunz⟩ := Hgz payload
      have hXs3 : assocLookup
          (attrs ++ [(AttributeCompression, ⟨"String", "gzip"⟩)])
          AttributeNameS3Bucket = none := by
        rw [assocLookup_append_right ha1]
        simp [assocLookup, hCS]
      have hXk : assocLookup
          (attrs ++ [(AttributeCompression, ⟨"String", "gzip"⟩)])
          AttributeNameKMSKey = none := by
        rw [assocLookup_append_right ha2]
        simp [assocLookup, hCK]
      have hXc : assocLookup
          (attrs ++ [(AttributeCompression, ⟨"String", "gzip"⟩)])
          AttributeCompression = some ⟨"String", "gzip"⟩ := by
        rw [assocLookup_append_right ha3]
        simp [assocLookup]
      have heraseC : assocErase
          (attrs ++ [(AttributeCompression, ⟨"String", "gzip"⟩)])
          AttributeCompression = attrs := by
        rw [assocErase_append_singleton, assocErase_of_not_mem ha3]
      have hstage1 : (if opts.compressionEnabled then
          compress env ⟨payload, attrs, ""⟩ else (⟨payload, attrs, ""⟩, none)) =
          (⟨env.base64Encode c,
            attrs ++ [(AttributeCompression, ⟨"String", "gzip"⟩)], ""⟩, none) := by
        rw [if_pos hcomp]
        simp [compress, compressData, hgzc, assocSet_of_not_mem _ ha3]
      have hstage2 : (if opts.kmsKeyID ≠ "" then
          Client.encrypt env opts st.kms now ⟨env.base64Encode c,
            attrs ++ [(AttributeCompression, ⟨"String", "gzip"⟩)], ""⟩
          else (st.kms, ⟨env.base64Encode c,
            attrs ++ [(AttributeCompression, ⟨"String", "gzip"⟩)], ""⟩, none)) =
          (st.kms, ⟨env.base64Encode c,
            attrs ++ [(AttributeCompression, ⟨"String", "gzip"⟩)], ""⟩, none) := by
        rw [if_neg (fun h => h hkms)]
      have hres : ∀ store₀, resolveMessage env opts store₀ st.kms now2
          ⟨env.base64Encode c,
           attrs ++ [(AttributeCompression, ⟨"String", "gzip"⟩)]⟩ =
          (st.kms, .ret (.inl ⟨payload, attrs⟩)) := by
        intro store₀
        simp [resolveMessage, assocContains, hXs3, hXk, hXc,
          decompressData, Hb64, hgunz, heraseC]
      exact MAIN (env.base64Encode c) (env.base64Encode c)
        (attrs ++ [(AttributeCompression, ⟨"String", "gzip"⟩)])
        (attrs ++ [(AttributeCompression, ⟨"String", "gzip"⟩)])
        st.kms st.kms hXs3 hstage1 hstage2 hres
    · -- compression on, encryption on
      obtain ⟨c, hgzc, hgunz⟩ := Hgz payload
      obtain ⟨g, hgenx, hglen, hgdec⟩ := Hgen opts.kmsKeyID
      have hvalid : validAESKeyLen g.plaintext = true := by
        simp [validAESKeyLen, hglen]
      obtain ⟨mee, hmee, humee⟩ := Hee ⟨g.ciphertextBlob, g.keyId,
        env.nonce ++ env.gcmSeal g.plaintext env.nonce (env.base64Encode c)⟩
      have hXs3 : assocLookup
          (attrs ++ [(AttributeCompression, ⟨"String", "gzip"⟩)])
          AttributeNameS3Bucket = none := by
        rw [assocLookup_append_right ha1]
        simp [assocLookup, hCS]
      have hXk : assocLookup
          (attrs ++ [(AttributeCompression, ⟨"String", "gzip"⟩)])
          AttributeNameKMSKey = none := by
        rw [assocLookup_append_right ha2]
        simp [assocLookup, hCK]
      have hXc : assocLookup
          (attrs ++ [(AttributeCompression, ⟨"String", "gzip"⟩)])
          AttributeCompression = some ⟨"String", "gzip"⟩ := by
        rw [assocLookup_append_right ha3]
        simp [assocLookup]
      have heraseC : assocErase
          (attrs ++ [(AttributeCompression, ⟨"String", "gzip"⟩)])
          AttributeCompression = attrs := by
        rw [assocErase_append_singleton, assocErase_of_not_mem ha3]
      have hflat : attrs ++ [(AttributeCompression, ⟨"String", "gzip"⟩),
          (AttributeNameKMSKey, ⟨"String", opts.kmsKeyID⟩)] =
          (attrs ++ [(AttributeCompression, ⟨"String", "gzip"⟩)]) ++
          [(AttributeNameKMSKey, ⟨"String", opts.kmsKeyID⟩)] := by
        simp
      have hA2s3 : assocLookup
          (attrs ++ [(AttributeCompression, ⟨"String", "gzip"⟩),
            (AttributeNameKMSKey, ⟨"String", opts.kmsKeyID⟩)])
          AttributeNameS3Bucket = none := by
        rw [hflat, assocLookup_append_right hXs3]
        simp [assocLookup, hKS]
      have hA2k : assocLookup
          (attrs ++ [(AttributeCompression, ⟨"String", "gzip"⟩),
            (AttributeNameKMSKey, ⟨"String", opts.kmsKeyID⟩)])
          AttributeNameKMSKey = some ⟨"String", opts.kmsKeyID⟩ := by
        rw [hflat, assocLookup_append_right hXk]
        simp [assocLookup]
      have heraseK : assocErase
          (attrs ++ [(AttributeCompression, ⟨"String", "gzip"⟩),
            (AttributeNameKMSKey, ⟨"String", opts.kmsKeyID⟩)])
          AttributeNameKMSKey =
          attrs ++ [(AttributeCompression, ⟨"String", "gzip"⟩)] := by
        rw [hflat, assocErase_append_singleton, assocErase_of_not_mem hXk]
      have hstage1 : (if opts.compressionEnabled then
          compress env ⟨payload, attrs, ""⟩ else (⟨payload, attrs, ""⟩, none)) =
          (⟨env.base64Encode c,
            attrs ++ [(AttributeCompression, ⟨"String", "gzip"⟩)], ""⟩, none) := by
        rw [if_pos hcomp]
        simp [compress, compressData, hgzc, assocSet_of_not_mem _ ha3]
      have hstage2 : (if opts.kmsKeyID ≠ "" then
          Client.encrypt env opts st.kms now ⟨env.base64Encode c,
            attrs ++ [(AttributeCompression, ⟨"String", "gzip"⟩)], ""⟩
          else (st.kms, ⟨env.base64Encode c,
            attrs ++ [(AttributeCompression, ⟨"String", "gzip"⟩)], ""⟩, none)) =
          (⟨none, st.kms.genCalls + 1, st.kms.decCalls⟩,
           ⟨mee, attrs ++ [(AttributeCompression, ⟨"String", "gzip"⟩),
             (AttributeNameKMSKey, ⟨"String", opts.kmsKeyID⟩)], ""⟩, none) := by
        rw [if_pos hkms]
        simp [Client.encrypt, kmsClient.encrypt, kmsClient.generateDataKey,
          hcacheSt, hcacheOpt, hgenx, encryptData, hvalid, hmee,
          assocSet_of_not_mem _ hXk]
      have hlen12 : ¬ (env.nonce.length +
          (env.gcmSeal g.plaintext env.nonce (env.base64Encode c)).length <
          gcmNonceSize) := by
        have h12a : gcmNonceSize = 12 := rfl
        rw [Hnonce, h12a]
        omega
      have h12 : gcmNonceSize = env.nonce.length := by rw [Hnonce]; rfl
      have htk : (env.nonce ++
          env.gcmSeal g.plaintext env.nonce (env.base64Encode c)).take gcmNonceSize =
          env.nonce := by
        rw [h12]
        exact take_len_append _ _
      have hdp : (env.nonce ++
          env.gcmSeal g.plaintext env.nonce (env.base64Encode c)).drop gcmNonceSize =
          env.gcmSeal g.plaintext env.nonce (env.base64Encode c) := by
        rw [h12]
        exact drop_len_append _ _
      have hres : ∀ store₀, resolveMessage env opts store₀
          ⟨none, st.kms.genCalls + 1, st.kms.decCalls⟩ now2
          ⟨mee, attrs ++ [(AttributeCompression, ⟨"String", "gzip"⟩),
            (AttributeNameKMSKey, ⟨"String", opts.kmsKeyID⟩)]⟩ =
          (⟨none, st.kms.genCalls + 1, st.kms.decCalls + 1⟩,
            .ret (.inl ⟨payload, attrs⟩)) := by
        intro store₀
        simp [resolveMessage, assocContains, hA2s3, hA2k, hkms, humee,
          kmsClient.decrypt, kmsClient.fetchKey, hgdec, hcacheOpt,
          decryptData, hvalid, hlen12, htk, hdp, Hgcm,
          heraseK, heraseC, hXc, decompressData, Hb64, hgunz]
      exact MAIN (env.base64Encode c) mee
        (attrs ++ [(AttributeCompression, ⟨"String", "gzip"⟩)])
        (attrs ++ [(AttributeCompression, ⟨"String", "gzip"⟩),
          (AttributeNameKMSKey, ⟨"String", opts.kmsKeyID⟩)])
        ⟨none, st.kms.genCalls + 1, st.kms.decCalls⟩
        ⟨none, st.kms.genCalls + 1, st.kms.decCalls + 1⟩
        hA2s3 hstage1 hstage2 hres
  · by_cases hkms : opts.kmsKeyID = ""
    · -- both stages off
      have hstage1 : (if opts.compressionEnabled then
          compress env ⟨payload, attrs, ""⟩ else (⟨payload, attrs, ""⟩, none)) =
          (⟨payload, attrs, ""⟩, none) := by
        rw [if_neg hcomp]
      have hstage2 : (if opts.kmsKeyID ≠ "" then
          Client.encrypt env opts st.kms now ⟨payload, attrs, ""⟩
          else (st.kms, ⟨payload, attrs, ""⟩, none)) =
          (st.kms, ⟨payload, attrs, ""⟩, none) := by
        rw [if_neg (fun h => h hkms)]
      have hres : ∀ store₀, resolveMessage env opts store₀ st.kms now2
          ⟨payload, attrs⟩ = (st.kms, .ret (.inl ⟨payload, attrs⟩)) := by
        intro store₀
        simp [resolveMessage, assocContains, ha1, ha2, ha3]
      exact MAIN payload payload attrs attrs st.kms st.kms ha1 hstage1 hstage2 hres
    · -- compression off, encryption on
      obtain ⟨g, hgenx, hglen, hgdec⟩ := Hgen opts.kmsKeyID
      have hvalid : validAESKeyLen g.plaintext = true := by
        simp [validAESKeyLen, hglen]
      obtain ⟨mee, hmee, humee⟩ := Hee ⟨g.ciphertextBlob, g.keyId,
        env.nonce ++ env.gcmSeal g.plaintext env.nonce payload⟩
      have hA2s3 : assocLookup
          (attrs ++ [(AttributeNameKMSKey, ⟨"String", opts.kmsKeyID⟩)])
          AttributeNameS3Bucket = none := by
        rw [assocLookup_append_right ha1]
        simp [assocLookup, hKS]
      have hA2k : assocLookup
          (attrs ++ [(AttributeNameKMSKey, ⟨"String", opts.kmsKeyID⟩)])
          AttributeNameKMSKey = some ⟨"String", opts.kmsKeyID⟩ := by
        rw [assocLookup_append_right ha2]
        simp [assocLookup]
      have heraseK : assocErase
          (attrs ++ [(AttributeNameKMSKey, ⟨"String", opts.kmsKeyID⟩)])
          AttributeNameKMSKey = attrs := by
        rw [assocErase_append_singleton, assocErase_of_not_mem ha2]
      have hstage1 : (if opts.compressionEnabled then
          compress env ⟨payload, attrs, ""⟩ else (⟨payload, attrs, ""⟩, none)) =
          (⟨payload, attrs, ""⟩, none) := by
        rw [if_neg hcomp]
      have hstage2 : (if opts.kmsKeyID ≠ "" then
          Client.encrypt env opts st.kms now ⟨payload, attrs, ""⟩
          else (st.kms, ⟨payload, attrs, ""⟩, none)) =
          (⟨none, st.kms.genCalls + 1, st.kms.decCalls⟩,
           ⟨mee, attrs ++ [(AttributeNameKMSKey, ⟨"String", opts.kmsKeyID⟩)], ""⟩,
           none) := by
        rw [if_pos hkms]
        simp [Client.encrypt, kmsClient.encrypt, kmsClient.generateDataKey,
          hcacheSt, hcacheOpt, hgenx, encryptData, hvalid, hmee,
          assocSet_of_not_mem _ ha2]
      have hlen12 : ¬ (env.nonce.length +
          (env.gcmSeal g.plaintext env.nonce payload).length < gcmNonceSize) := by
        have h12a : gcmNonceSize = 12 := rfl
        rw [Hnonce, h12a]
        omega
      have h12 : gcmNonceSize = env.nonce.length := by rw [Hnonce]; rfl
      have htk : (env.nonce ++
          env.gcmSeal g.plaintext env.nonce payload).take gcmNonceSize =
          env.nonce := by
        rw [h12]
        exact take_len_append _ _
      have hdp : (env.nonce ++
          env.gcmSeal g.plaintext env.nonce payload).drop gcmNonceSize =
          env.gcmSeal g.plaintext env.nonce payload := by
        rw [h12]
        exact drop_len_append _ _
      have hres : ∀ store₀, resolveMessage env opts store₀
          ⟨none, st.kms.genCalls + 1, st.kms.decCalls⟩ now2
          ⟨mee, attrs ++ [(AttributeNameKMSKey, ⟨"String", opts.kmsKeyID⟩)]⟩ =
          (⟨none, st.kms.genCalls + 1, st.kms.decCalls + 1⟩,
            .ret (.inl ⟨payload, attrs⟩)) := by
        intro store₀
        simp [resolveMessage, assocContains, hA2s3, hA2k, hkms, humee,
          kmsClient.decrypt, kmsClient.fetchKey, hgdec, hcacheOpt,
          decryptData, hvalid, hlen12, htk, hdp, Hgcm, heraseK, ha3]
      exact MAIN payload mee attrs
        (attrs ++ [(AttributeNameKMSKey, ⟨"String", opts.kmsKeyID⟩)])
        ⟨none, st.kms.genCalls + 1, st.kms.decCalls⟩
        ⟨none, st.kms.genCalls + 1, st.kms.decCalls + 1⟩
        hA2s3 hstage1 hstage2 hres

/-- Witness for `C1_round_trip`: a no-stage configuration, payload
`[1, 2, 3]`, no caller attributes, against the faithful `envC1`. -/
theorem C1_round_trip_witness :
    ∃ st2, Client.ReceiveMessages envC1 ⟨"", false, "", false, false, 0⟩
      ⟨⟨none, 0, 0⟩, [], [("q", "url")], [⟨[1, 2, 3], []⟩], 0⟩ 0 "q" =
      (st2, .ok ⟨[⟨[1, 2, 3], []⟩], []⟩) :=
  C1_round_trip envC1 ⟨"", false, "", false, false, 0⟩
    ⟨⟨none, 0, 0⟩, [], [], [], 0⟩
    ⟨⟨none, 0, 0⟩, [], [("q", "url")], [⟨[1, 2, 3], []⟩], 0⟩
    0 0 "q" [1, 2, 3] [] ⟨[1, 2, 3], []⟩
    rfl rfl rfl rfl rfl
    (fun b => ⟨b, rfl, rfl⟩)
    (fun _ => rfl)
    (fun k => ⟨⟨List.replicate 32 0, [7], k⟩, rfl, rfl, rfl⟩)
    (fun _ _ _ => rfl)
    rfl
    (fun e => ⟨eeMarshal e, rfl, eeUnmarshal_eeMarshal e⟩)
    (fun f => ⟨feMarshal f, rfl, feUnmarshal_feMarshal f⟩)
    rfl rfl rfl

/-- **C2, counterexample**: the attribute-count ceiling is *not* checked on
the attribute map as given by the caller before the transformation stages:
with compression enabled, a send with exactly 10 caller attributes fails
with the too-many-attributes error, because the compression marker was added
before the check ran. -/
theorem C2_precheck_counterexample :
    (Client.SendMessageWithAttributes goodEnv ⟨"", false, "", true, false, 0⟩
      ⟨⟨none, 0, 0⟩, [], [], [], 0⟩ 0 "q" [1] attrs10).2 =
      .err .errorMaxNumberOfAttributesExceeded := by
  decide

/-- **C2, amended**: the attribute-count ceiling (at most 10, failing with
the too-many-attributes error) is checked inside the transport send, after
the transformation stages, on the possibly marker-augmented attribute map.
With no stage enabled the check sees the caller's map unchanged: exactly 10
caller attributes pass the ceiling check (only the size check can still
reject) and 11 fail with the too-many-attributes error regardless of the
payload; with compression enabled, 10 caller attributes already fail,
because the stage added its marker before the check. -/
theorem C2_attribute_ceiling_after_transforms
    (env : Env) (opts : clientOpts) (st : ClientState) (now : Nat)
    (queueName url : String) (payload : Bytes) (attrs : AttrMap) (c : Bytes)
    (hc : opts.compressionEnabled = false)
    (hk : opts.kmsKeyID = "")
    (hs : opts.s3Bucket = "")
    (hq : env.getQueueUrlExt queueName = (some (some url), none))
    (hsend : ∀ m, env.sendMessageExt m = none)
    (hgz : env.gzipCompress payload = .ok c)
    (hnomark : assocLookup attrs AttributeCompression = none) :
    (attrs.length = 11 →
      (Client.SendMessageWithAttributes env opts st now queueName payload attrs).2 =
        .err .errorMaxNumberOfAttributesExceeded) ∧
    (attrs.length = 10 →
      (Client.SendMessageWithAttributes env opts st now queueName payload attrs).2 =
        .ok () ∨
      (Client.SendMessageWithAttributes env opts st now queueName payload attrs).2 =
        .err .errorMaxMessageSizeExceeded) ∧
    (attrs.length = 10 →
      (Client.SendMessageWithAttributes env { opts with compressionEnabled := true }
        st now queueName payload attrs).2 =
        .err .errorMaxNumberOfAttributesExceeded) := by
  refine ⟨?_, ?_, ?_⟩
  · intro hlen
    simp only [Client.SendMessageWithAttributes, hc, Bool.false_eq_true, if_false,
      hk, hs, ne_eq, not_true_eq_false, and_false, if_false,
      sqsClient.sendMessage, hlen, maxNumberOfAttributes]
    norm_num
  · intro hlen
    by_cases hsize :
        (⟨payload, attrs, ""⟩ : sqsSendEvent).size > maxMessageSize
    · right
      simp only [Client.SendMessageWithAttributes, hc, Bool.false_eq_true, if_false,
        hk, hs, ne_eq, not_true_eq_false, and_false,
        sqsClient.sendMessage, hlen, maxNumberOfAttributes, hsize, if_true]
      norm_num
    · left
      cases hcache : assocLookup st.queueCache queueName with
      | some u =>
        simp only [Client.SendMessageWithAttributes, hc, Bool.false_eq_true, if_false,
          hk, hs, ne_eq, not_true_eq_false, and_false,
          sqsClient.sendMessage, hlen, maxNumberOfAttributes, hsize,
          sqsClient.getQueueURL, hcache, hsend]
        norm_num
      | none =>
        simp only [Client.SendMessageWithAttributes, hc, Bool.false_eq_true, if_false,
          hk, hs, ne_eq, not_true_eq_false, and_false,
          sqsClient.sendMessage, hlen, maxNumberOfAttributes, hsize,
          sqsClient.getQueueURL, hcache, hq, hsend]
        norm_num
  · intro hlen
    have hset : assocSet attrs AttributeCompression ⟨"String", "gzip"⟩ =
        attrs ++ [(AttributeCompression, ⟨"String", "gzip"⟩)] :=
      assocSet_of_not_mem _ hnomark
    simp only [Client.SendMessageWithAttributes, if_true, compress, compressData, hgz,
      hset, hk, hs, ne_eq, not_true_eq_false, and_false, if_false,
      sqsClient.sendMessage, List.length_append, hlen, maxNumberOfAttributes]
    norm_num

/-- Witness for the amended C2: eleven attributes fail, ten pass the ceiling
check with no stage enabled, and ten fail with compression enabled. -/
theorem C2_attribute_ceiling_after_transforms_witness :
    ((Client.SendMessageWithAttributes goodEnv ⟨"", false, "", false, false, 0⟩
        ⟨⟨none, 0, 0⟩, [], [], [], 0⟩ 0 "q" [1] attrs11).2 =
      .err .errorMaxNumberOfAttributesExceeded) ∧
    ((Client.SendMessageWithAttributes goodEnv ⟨"", false, "", false, false, 0⟩
        ⟨⟨none, 0, 0⟩, [], [], [], 0⟩ 0 "q" [1] attrs10).2 = .ok () ∨
     (Client.SendMessageWithAttributes goodEnv ⟨"", false, "", false, false, 0⟩
        ⟨⟨none, 0, 0⟩, [], [], [], 0⟩ 0 "q" [1] attrs10).2 =
      .err .errorMaxMessageSizeExceeded) ∧
    ((Client.SendMessageWithAttributes goodEnv
        { (⟨"", false, "", false, false, 0⟩ : clientOpts) with compressionEnabled := true }
        ⟨⟨none, 0, 0⟩, [], [], [], 0⟩ 0 "q" [1] attrs10).2 =
      .err .errorMaxNumberOfAttributesExceeded) :=
  ⟨(C2_attribute_ceiling_after_transforms goodEnv ⟨"", false, "", false, false, 0⟩
      ⟨⟨none, 0, 0⟩, [], [], [], 0⟩ 0 "q" "url" [1] attrs11 [1]
      rfl rfl rfl rfl (fun _ => rfl) rfl (by decide)).1 (by decide),
   (C2_attribute_ceiling_after_transforms goodEnv ⟨"", false, "", false, false, 0⟩
      ⟨⟨none, 0, 0⟩, [], [], [], 0⟩ 0 "q" "url" [1] attrs10 [1]
      rfl rfl rfl rfl (fun _ => rfl) rfl (by decide)).2.1 (by decide),
   (C2_attribute_ceiling_after_transforms goodEnv ⟨"", false, "", false, false, 0⟩
      ⟨⟨none, 0, 0⟩, [], [], [], 0⟩ 0 "q" "url" [1] attrs10 [1]
      rfl rfl rfl rfl (fun _ => rfl) rfl (by decide)).2.2 (by decide)⟩

/-- **C3**: size-threshold boundary for `SendMessageWithAttributes` with no
attributes (and no compression/encryption stage, so the transformed payload
is the payload itself): a payload of exactly 262,144 bytes is sent on the
queue as-is, without blob-offload; one byte larger with no bucket configured
fails with the max-message-size error; one byte larger with a bucket
configured succeeds, carries the `payloadBucket` marker attribute, and its
body deserializes to a file-event descriptor whose size field equals the
byte length of the uploaded payload. -/
theorem C3_size_threshold_boundary
    (env : Env) (st : ClientState) (now : Nat) (queueName url bucket : String)
    (p1 p2 p3 feBytes : Bytes)
    (hq : env.getQueueUrlExt queueName = (some (some url), none))
    (hsend : ∀ m, env.sendMessageExt m = none)
    (hput : env.putObjectExt = none)
    (hlen1 : p1.length = maxMessageSize)
    (hlen2 : p2.length = maxMessageSize + 1)
    (hlen3 : p3.length = maxMessageSize + 1)
    (hbucket : bucket ≠ "")
    (hfe : env.marshalFileEvent ⟨some p3.length, some bucket, some env.uuid⟩ = .ok feBytes)
    (hfeu : env.unmarshalFileEvent feBytes =
      .ok ⟨some p3.length, some bucket, some env.uuid⟩)
    (hsmall : feBytes.length + goStrLen AttributeNameS3Bucket + goStrLen "String" +
      goStrLen bucket ≤ maxMessageSize) :
    (∃ st', Client.SendMessageWithAttributes env ⟨bucket, false, "", false, false, 0⟩
        st now queueName p1 [] = (st', .ok ()) ∧
      st'.queue = st.queue ++ [⟨p1, []⟩]) ∧
    ((Client.SendMessageWithAttributes env ⟨"", false, "", false, false, 0⟩
        st now queueName p2 []).2 = .err .errorMaxMessageSizeExceeded) ∧
    (∃ st', Client.SendMessageWithAttributes env ⟨bucket, false, "", false, false, 0⟩
        st now queueName p3 [] = (st', .ok ()) ∧
      st'.queue = st.queue ++ [⟨feBytes, [(AttributeNameS3Bucket, ⟨"String", bucket⟩)]⟩] ∧
      env.unmarshalFileEvent feBytes =
        .ok ⟨some p3.length, some bucket, some env.uuid⟩) := by
  have hsz1 : (⟨p1, [], ""⟩ : sqsSendEvent).size = p1.length := rfl
  have hns1 : ¬ ((⟨p1, [], ""⟩ : sqsSendEvent).size > maxMessageSize) := by
    rw [hsz1, hlen1]; exact Nat.lt_irrefl _
  have hsz2 : (⟨p2, [], ""⟩ : sqsSendEvent).size = p2.length := rfl
  have hgt2 : (⟨p2, [], ""⟩ : sqsSendEvent).size > maxMessageSize := by
    rw [hsz2, hlen2]; exact Nat.lt_succ_self _
  have hsz3 : (⟨p3, [], ""⟩ : sqsSendEvent).size = p3.length := rfl
  have hgt3 : (⟨p3, [], ""⟩ : sqsSendEvent).size > maxMessageSize := by
    rw [hsz3, hlen3]; exact Nat.lt_succ_self _
  have hnsFe : ¬ ((⟨feBytes, [(AttributeNameS3Bucket, ⟨"String", bucket⟩)], ""⟩ :
      sqsSendEvent).size > maxMessageSize) := by
    exact Nat.not_lt.mpr hsmall
  refine ⟨?_, ?_, ?_⟩
  · cases hcache : assocLookup st.queueCache queueName with
    | some u =>
      refine ⟨⟨st.kms, st.store, st.queueCache, st.queue ++ [⟨p1, []⟩],
               st.sendBatchCalls⟩, ?_, rfl⟩
      simp [Client.SendMessageWithAttributes, sqsClient.sendMessage,
        sqsClient.getQueueURL, hcache, hsend, hns1, maxNumberOfAttributes]
    | none =>
      refine ⟨⟨st.kms, st.store, assocSet st.queueCache queueName url,
               st.queue ++ [⟨p1, []⟩], st.sendBatchCalls⟩, ?_, rfl⟩
      simp [Client.SendMessageWithAttributes, sqsClient.sendMessage,
        sqsClient.getQueueURL, hcache, hq, hsend, hns1, maxNumberOfAttributes]
  · simp [Client.SendMessageWithAttributes, sqsClient.sendMessage,
      maxNumberOfAttributes, hgt2]
  · cases hcache : assocLookup st.queueCache queueName with
    | some u =>
      refine ⟨⟨st.kms, assocSet st.store (bucket, env.uuid) p3, st.queueCache,
               st.queue ++ [⟨feBytes, [(AttributeNameS3Bucket, ⟨"String", bucket⟩)]⟩],
               st.sendBatchCalls⟩, ?_, rfl, hfeu⟩
      simp [Client.SendMessageWithAttributes, Client.uploadToS3, s3Client.putObject,
        hput, hfe, hgt3, hbucket, sqsClient.sendMessage, sqsClient.getQueueURL,
        hcache, hsend, maxNumberOfAttributes, hnsFe, assocSet, assocContains,
        assocLookup]
    | none =>
      refine ⟨⟨st.kms, assocSet st.store (bucket, env.uuid) p3,
               assocSet st.queueCache queueName url,
               st.queue ++ [⟨feBytes, [(AttributeNameS3Bucket, ⟨"String", bucket⟩)]⟩],
               st.sendBatchCalls⟩, ?_, rfl, hfeu⟩
      simp [Client.SendMessageWithAttributes, Client.uploadToS3, s3Client.putObject,
        hput, hfe, hgt3, hbucket, sqsClient.sendMessage, sqsClient.getQueueURL,
        hcache, hq, hsend, maxNumberOfAttributes, hnsFe, assocSet, assocContains,
        assocLookup]

/-- **C4, counterexample**: inbound resolution is *not* driven purely by
which markers are present irrespective of configuration: a received message
carrying the `payloadBucket` marker, processed by a client with no S3 bucket
configured, is returned successfully with its body unchanged and the marker
still present (instead of being downloaded and stripped). -/
theorem C4_config_dependence_counterexample :
    (Client.ReceiveMessages envMarked ⟨"", false, "", false, false, 0⟩
      ⟨⟨none, 0, 0⟩, [], [("q", "url")], [], 0⟩ 0 "q").2 =
      .ok ⟨[msgMarked], []⟩ := by
  decide

/-- **C4, amended**: inbound resolution is driven by which stage-marker
attributes are present *and by which collaborators the client has
configured*: the `payloadBucket` marker triggers download-and-strip only
when an S3 bucket is configured (otherwise the message passes through
untouched); the `kmsKey` marker triggers decrypt-and-strip only when a KMS
key is configured; the `compression` marker triggers decompress-and-strip
irrespective of configuration; a message using no stage passes through
unchanged, also through `ReceiveMessages` as a whole. -/
theorem C4_resolution_by_markers_and_config
    (env : Env) (store : S3Store) (kst kst' : kmsState) (now : Nat)
    (optsB optsC : clientOpts) (ma mb mc md me' mf : Message)
    (fe : fileEvent) (ee : encryptedEvent) (p d dcomp : Bytes)
    (stG : ClientState) (queueName url : String)
    (hBs3 : optsB.s3Bucket = "") (hBkms : optsB.kmsKeyID = "")
    (hCs3 : optsC.s3Bucket ≠ "") (hCkms : optsC.kmsKeyID ≠ "")
    (ha1 : assocLookup ma.messageAttributes AttributeNameS3Bucket = none)
    (ha2 : assocLookup ma.messageAttributes AttributeNameKMSKey = none)
    (ha3 : assocLookup ma.messageAttributes AttributeCompression = none)
    (hb1 : assocContains mb.messageAttributes AttributeNameS3Bucket = true)
    (hb2 : assocLookup mb.messageAttributes AttributeNameKMSKey = none)
    (hb3 : assocLookup mb.messageAttributes AttributeCompression = none)
    (hc1 : assocContains mc.messageAttributes AttributeNameS3Bucket = true)
    (hc2 : assocLookup mc.messageAttributes AttributeNameKMSKey = none)
    (hc3 : assocLookup mc.messageAttributes AttributeCompression = none)
    (hcu : env.unmarshalFileEvent mc.body = .ok fe)
    (hcg : s3Client.getObject store fe = .ok p)
    (hd1 : assocContains md.messageAttributes AttributeNameKMSKey = true)
    (hd2 : assocLookup md.messageAttributes AttributeNameS3Bucket = none)
    (hd3 : assocLookup md.messageAttributes AttributeCompression = none)
    (hdu : env.unmarshalEncryptedEvent md.body = .ok ee)
    (hdd : kmsClient.decrypt env optsC kst now ee = (kst', .ok d))
    (he1 : assocContains me'.messageAttributes AttributeNameKMSKey = true)
    (he2 : assocLookup me'.messageAttributes AttributeNameS3Bucket = none)
    (he3 : assocLookup me'.messageAttributes AttributeCompression = none)
    (hf1 : assocContains mf.messageAttributes AttributeCompression = true)
    (hf2 : assocLookup mf.messageAttributes AttributeNameS3Bucket = none)
    (hf3 : assocLookup mf.messageAttributes AttributeNameKMSKey = none)
    (hfd : decompressData env mf.body = .ok dcomp)
    (hgq : assocLookup stG.queueCache queueName = some url)
    (hgr : env.receiveMessageExt queueName = (some [ma], none)) :
    resolveMessage env optsB store kst now ma = (kst, .ret (.inl ma)) ∧
    resolveMessage env optsB store kst now mb = (kst, .ret (.inl mb)) ∧
    resolveMessage env optsC store kst now mc =
      (kst, .ret (.inl ⟨p, assocErase mc.messageAttributes AttributeNameS3Bucket⟩)) ∧
    resolveMessage env optsC store kst now md =
      (kst', .ret (.inl ⟨d, assocErase md.messageAttributes AttributeNameKMSKey⟩)) ∧
    resolveMessage env optsB store kst now me' = (kst, .ret (.inl me')) ∧
    resolveMessage env optsB store kst now mf =
      (kst, .ret (.inl ⟨dcomp, assocErase mf.messageAttributes AttributeCompression⟩)) ∧
    (∃ st', Client.ReceiveMessages env optsB stG now queueName =
      (st', .ok ⟨[ma], []⟩)) := by
  have hks : AttributeNameKMSKey ≠ AttributeNameS3Bucket := by decide
  have hcs : AttributeCompression ≠ AttributeNameS3Bucket := by decide
  have hck : AttributeCompression ≠ AttributeNameKMSKey := by decide
  have hb1' : (assocLookup mb.messageAttributes AttributeNameS3Bucket).isSome = true := hb1
  have hc1' : (assocLookup mc.messageAttributes AttributeNameS3Bucket).isSome = true := hc1
  have hd1' : (assocLookup md.messageAttributes AttributeNameKMSKey).isSome = true := hd1
  have he1' : (assocLookup me'.messageAttributes AttributeNameKMSKey).isSome = true := he1
  have hf1' : (assocLookup mf.messageAttributes AttributeCompression).isSome = true := hf1
  have hresA : ∀ (store₀ : S3Store) (kst₀ : kmsState),
      resolveMessage env optsB store₀ kst₀ now ma = (kst₀, .ret (.inl ma)) := by
    intro store₀ kst₀
    simp [resolveMessage, assocContains, ha1, ha2, ha3]
  refine ⟨hresA store kst, ?_, ?_, ?_, ?_, ?_, ?_⟩
  · simp [resolveMessage, assocContains, hb1', hBs3, hBkms, hb2, hb3]
  · have her2 : assocLookup
        (assocErase mc.messageAttributes AttributeNameS3Bucket) AttributeNameKMSKey =
        none := by rw [assocLookup_erase_ne hks]; exact hc2
    have her3 : assocLookup
        (assocErase mc.messageAttributes AttributeNameS3Bucket) AttributeCompression =
        none := by rw [assocLookup_erase_ne hcs]; exact hc3
    simp [resolveMessage, assocContains, hc1', hCs3, hcu, hcg, her2, her3]
  · have her3 : assocLookup
        (assocErase md.messageAttributes AttributeNameKMSKey) AttributeCompression =
        none := by rw [assocLookup_erase_ne hck]; exact hd3
    simp [resolveMessage, assocContains, hd1', hd2, hCkms, hdu, hdd, her3]
  · simp [resolveMessage, assocContains, he1', he2, hBkms, he3]
  · simp [resolveMessage, assocContains, hf1', hf2, hf3, hfd]
  · have hsnd : (Client.ReceiveMessages env optsB stG now queueName).2 =
        .ok ⟨[ma], []⟩ := by
      simp only [Client.ReceiveMessages, sqsClient.receiveMessage,
        sqsClient.getQueueURL, hgq, hgr, resolveMessages, hresA stG.store stG.kms]
    exact ⟨(Client.ReceiveMessages env optsB stG now queueName).1, by rw [← hsnd]⟩

/-- Witness for the amended C4: concrete messages carrying each marker
against configured and unconfigured clients. -/
theorem C4_resolution_by_markers_and_config_witness :
    resolveMessage envPlain ⟨"", false, "", false, false, 0⟩ [(("b", "u"), [3])]
        ⟨none, 0, 0⟩ 0 maPlain = (⟨none, 0, 0⟩, .ret (.inl maPlain)) ∧
    resolveMessage envPlain ⟨"", false, "", false, false, 0⟩ [(("b", "u"), [3])]
        ⟨none, 0, 0⟩ 0 ⟨[9], [(AttributeNameS3Bucket, ⟨"String", "x"⟩)]⟩ =
      (⟨none, 0, 0⟩, .ret (.inl ⟨[9], [(AttributeNameS3Bucket, ⟨"String", "x"⟩)]⟩)) ∧
    resolveMessage envPlain ⟨"b", false, "k", false, false, 0⟩ [(("b", "u"), [3])]
        ⟨none, 0, 0⟩ 0 ⟨feMarshal feSm, [(AttributeNameS3Bucket, ⟨"String", "x"⟩)]⟩ =
      (⟨none, 0, 0⟩, .ret (.inl ⟨[3],
        assocErase [(AttributeNameS3Bucket, ⟨"String", "x"⟩)] AttributeNameS3Bucket⟩)) ∧
    resolveMessage envPlain ⟨"b", false, "k", false, false, 0⟩ [(("b", "u"), [3])]
        ⟨none, 0, 0⟩ 0 ⟨eeMarshal eeGood, [(AttributeNameKMSKey, ⟨"String", "x"⟩)]⟩ =
      (⟨none, 0, 1⟩, .ret (.inl ⟨[5],
        assocErase [(AttributeNameKMSKey, ⟨"String", "x"⟩)] AttributeNameKMSKey⟩)) ∧
    resolveMessage envPlain ⟨"", false, "", false, false, 0⟩ [(("b", "u"), [3])]
        ⟨none, 0, 0⟩ 0 ⟨[9], [(AttributeNameKMSKey, ⟨"String", "x"⟩)]⟩ =
      (⟨none, 0, 0⟩, .ret (.inl ⟨[9], [(AttributeNameKMSKey, ⟨"String", "x"⟩)]⟩)) ∧
    resolveMessage envPlain ⟨"", false, "", false, false, 0⟩ [(("b", "u"), [3])]
        ⟨none, 0, 0⟩ 0 ⟨[4], [(AttributeCompression, ⟨"String", "x"⟩)]⟩ =
      (⟨none, 0, 0⟩, .ret (.inl ⟨[4],
        assocErase [(AttributeCompression, ⟨"String", "x"⟩)] AttributeCompression⟩)) ∧
    (∃ st', Client.ReceiveMessages envPlain ⟨"", false, "", false, false, 0⟩
        ⟨⟨none, 0, 0⟩, [], [("q", "url")], [], 0⟩ 0 "q" = (st', .ok ⟨[maPlain], []⟩)) :=
  C4_resolution_by_markers_and_config envPlain [(("b", "u"), [3])]
    ⟨none, 0, 0⟩ ⟨none, 0, 1⟩ 0
    ⟨"", false, "", false, false, 0⟩ ⟨"b", false, "k", false, false, 0⟩
    maPlain ⟨[9], [(AttributeNameS3Bucket, ⟨"String", "x"⟩)]⟩
    ⟨feMarshal feSm, [(AttributeNameS3Bucket, ⟨"String", "x"⟩)]⟩
    ⟨eeMarshal eeGood, [(AttributeNameKMSKey, ⟨"String", "x"⟩)]⟩
    ⟨[9], [(AttributeNameKMSKey, ⟨"String", "x"⟩)]⟩
    ⟨[4], [(AttributeCompression, ⟨"String", "x"⟩)]⟩
    feSm eeGood [3] [5] [4]
    ⟨⟨none, 0, 0⟩, [], [("q", "url")], [], 0⟩ "q" "url"
    rfl rfl (by decide) (by decide)
    (by decide) (by decide) (by decide)
    (by decide) (by decide) (by decide)
    (by decide) (by decide) (by decide)
    (feUnmarshal_feMarshal feSm) rfl
    (by decide) (by decide) (by decide)
    (eeUnmarshal_eeMarshal eeGood) (by decide)
    (by decide) (by decide) (by decide)
    (by decide) (by decide) (by decide)
    rfl rfl rfl

/-- Witness for C3: payloads of exactly 262,144 and 262,145 zero bytes. -/
theorem C3_size_threshold_boundary_witness :
    (∃ st', Client.SendMessageWithAttributes goodEnv ⟨"b", false, "", false, false, 0⟩
        ⟨⟨none, 0, 0⟩, [], [], [], 0⟩ 0 "q" (List.replicate maxMessageSize 0) [] =
        (st', .ok ()) ∧
      st'.queue = [] ++ [⟨List.replicate maxMessageSize 0, []⟩]) ∧
    ((Client.SendMessageWithAttributes goodEnv ⟨"", false, "", false, false, 0⟩
        ⟨⟨none, 0, 0⟩, [], [], [], 0⟩ 0 "q"
        (List.replicate (maxMessageSize + 1) 0) []).2 =
      .err .errorMaxMessageSizeExceeded) ∧
    (∃ st', Client.SendMessageWithAttributes goodEnv ⟨"b", false, "", false, false, 0⟩
        ⟨⟨none, 0, 0⟩, [], [], [], 0⟩ 0 "q" (List.replicate (maxMessageSize + 1) 0) [] =
        (st', .ok ()) ∧
      st'.queue = [] ++
        [⟨feMarshal feBig, [(AttributeNameS3Bucket, ⟨"String", "b"⟩)]⟩] ∧
      goodEnv.unmarshalFileEvent (feMarshal feBig) =
        .ok ⟨some (List.replicate (maxMessageSize + 1) (0 : Nat)).length,
             some "b", some "u"⟩) :=
  C3_size_threshold_boundary goodEnv ⟨⟨none, 0, 0⟩, [], [], [], 0⟩ 0 "q" "url" "b"
    (List.replicate maxMessageSize 0) (List.replicate (maxMessageSize + 1) 0)
    (List.replicate (maxMessageSize + 1) 0) (feMarshal feBig)
    rfl (fun _ => rfl) rfl (by simp) (by simp) (by simp) (by decide)
    rfl (feUnmarshal_feMarshal feBig)
    (by
      have h9 : (feMarshal feBig).length = 9 := by
        simp [feBig, feMarshal, optEnc, lpEncode, strBytes]
      rw [h9]
      decide)

/-- **C5**: with key caching enabled, `N ≥ 1` sequential payload-encryption
calls with the same key id cause exactly one external `GenerateDataKey`
call (the rest are cache hits under the key-id fingerprint), and a
subsequent decryption of any of the produced envelopes — any envelope
wrapping this data key — causes zero external `Decrypt` calls, because the
generate step also stored the entry under the wrapped-key fingerprint. -/
theorem C5_kms_cache_counting
    (env : Env) (opts : clientOpts) (payload : Bytes) (t t' N : Nat) (g : genOut)
    (hEnabled : opts.kmsKeyCacheEnabled = true)
    (hgen : env.generateDataKeyExt opts.kmsKeyID = .ok g)
    (hklen : g.plaintext.length = 32)
    (hN : 1 ≤ N)
    (ht' : t' ≤ t + opts.kmsKeyCacheExpirationPeriod) :
    (encryptIter env opts opts.kmsKeyID payload t N (newKMSState opts)).1.genCalls = 1 ∧
    (∀ x ∈ (encryptIter env opts opts.kmsKeyID payload t N (newKMSState opts)).2,
      ∃ ee : encryptedEvent, x = .ok ee ∧ ee.encryptedEncryptionKey = g.ciphertextBlob) ∧
    (∀ ee : encryptedEvent, ee.encryptedEncryptionKey = g.ciphertextBlob →
      (kmsClient.decrypt env opts
        (encryptIter env opts opts.kmsKeyID payload t N (newKMSState opts)).1 t' ee
       ).1.decCalls = 0) := by
  have hvalid : validAESKeyLen g.plaintext = true := by simp [validAESKeyLen, hklen]
  set P := opts.kmsKeyCacheExpirationPeriod with hP
  set fp1 := env.md5Sum (strBytes opts.kmsKeyID) with hfp1
  set fp2 := env.md5Sum g.ciphertextBlob with hfp2
  set eT : cacheEntry := ⟨g.plaintext, g.ciphertextBlob, t⟩ with heT
  set E : List (Bytes × cacheEntry) := assocSet [(fp1, eT)] fp2 eT with hE
  have hmemE : ∀ e ∈ E, e.2 = eT := by
    intro e he
    rcases mem_assocSet he with rfl | ⟨hm, _⟩
    · rfl
    · simpa using congrArg Prod.snd (List.mem_singleton.mp hm)
  have hcleanE : ∀ s, s ≤ t + P →
      List.filter (fun e => !decide (e.2.entered + P < s)) E = E := by
    intro s hs
    rw [List.filter_eq_self]
    intro e he
    rw [hmemE e he]
    simpa [heT] using Nat.not_lt.mpr hs
  have hlook2 : assocLookup E fp2 = some eT := assocLookup_set_self
  have hlook1 : assocLookup E fp1 = some eT := by
    by_cases h12 : fp1 = fp2
    · rw [h12, hE, h12]
      exact assocLookup_set_self
    · rw [hE, assocLookup_set_ne h12]
      simp [assocLookup]
  have hGenHit : ∀ gc dc,
      kmsClient.generateDataKey env opts ⟨some ⟨E, P⟩, gc, dc⟩ t opts.kmsKeyID =
        (⟨some ⟨E, P⟩, gc, dc⟩, .ok ⟨g.plaintext, g.ciphertextBlob, opts.kmsKeyID⟩) := by
    intro gc dc
    simp only [kmsClient.generateDataKey, keyCache.get, keyCache.clean,
      hcleanE t (Nat.le_add_right t P), hlook1]
  have hEncHit : ∀ gc dc,
      kmsClient.encrypt env opts ⟨some ⟨E, P⟩, gc, dc⟩ t opts.kmsKeyID payload =
        (⟨some ⟨E, P⟩, gc, dc⟩,
          .ok ⟨g.ciphertextBlob, opts.kmsKeyID,
               env.nonce ++ env.gcmSeal g.plaintext env.nonce payload⟩) := by
    intro gc dc
    simp only [kmsClient.encrypt, hGenHit gc dc, encryptData, hvalid, if_true]
  have hput2 : ((⟨[], P⟩ : keyCache).put t fp1 g.plaintext g.ciphertextBlob).put t fp2
      g.plaintext g.ciphertextBlob = ⟨E, P⟩ := by
    have hk1 : (⟨[], P⟩ : keyCache).put t fp1 g.plaintext g.ciphertextBlob =
        ⟨[(fp1, eT)], P⟩ := by
      simp [keyCache.put, keyCache.clean, assocSet, assocContains, assocLookup, heT]
    rw [hk1]
    have hkeep : List.filter (fun e => !decide (e.2.entered + P < t)) [(fp1, eT)] =
        [(fp1, eT)] := by
      rw [List.filter_eq_self]
      intro e he
      rw [List.mem_singleton.mp he]
      simp [heT, Nat.not_lt.mpr (Nat.le_add_right t P)]
    simp only [keyCache.put, keyCache.clean, hkeep]
  have hFirst : kmsClient.encrypt env opts (newKMSState opts) t opts.kmsKeyID payload =
      (⟨some ⟨E, P⟩, 1, 0⟩,
        .ok ⟨g.ciphertextBlob, g.keyId,
             env.nonce ++ env.gcmSeal g.plaintext env.nonce payload⟩) := by
    simp only [kmsClient.encrypt, kmsClient.generateDataKey, newKMSState, hEnabled,
      if_true, keyCache.get, keyCache.clean, List.filter_nil, assocLookup, hgen,
      hput2, encryptData, hvalid]
  have hIter : ∀ n gc dc,
      encryptIter env opts opts.kmsKeyID payload t n ⟨some ⟨E, P⟩, gc, dc⟩ =
        (⟨some ⟨E, P⟩, gc, dc⟩,
          List.replicate n (.ok ⟨g.ciphertextBlob, opts.kmsKeyID,
            env.nonce ++ env.gcmSeal g.plaintext env.nonce payload⟩)) := by
    intro n
    induction n with
    | zero => intro gc dc; rfl
    | succ n ih =>
      intro gc dc
      simp only [encryptIter, hEncHit gc dc, ih gc dc, List.replicate]
  obtain ⟨m, rfl⟩ : ∃ m, N = m + 1 := ⟨N - 1, (Nat.succ_pred_eq_of_pos hN).symm⟩
  have hRun : encryptIter env opts opts.kmsKeyID payload t (m + 1) (newKMSState opts) =
      (⟨some ⟨E, P⟩, 1, 0⟩,
        .ok ⟨g.ciphertextBlob, g.keyId,
             env.nonce ++ env.gcmSeal g.plaintext env.nonce payload⟩ ::
        List.replicate m (.ok ⟨g.ciphertextBlob, opts.kmsKeyID,
          env.nonce ++ env.gcmSeal g.plaintext env.nonce payload⟩)) := by
    simp only [encryptIter, hFirst, hIter m 1 0]
  refine ⟨?_, ?_, ?_⟩
  · rw [hRun]
  · intro x hx
    rw [hRun] at hx
    rcases List.mem_cons.mp hx with rfl | hx
    · exact ⟨_, rfl, rfl⟩
    · rw [List.eq_of_mem_replicate hx]
      exact ⟨_, rfl, rfl⟩
  · intro ee hee
    rw [hRun]
    simp only [kmsClient.decrypt, kmsClient.fetchKey, keyCache.get, keyCache.clean,
      hee, hcleanE t' ht', hlook2]

/-- Witness for C5: three encrypt calls under the faithful environment and a
decrypt of the produced envelope, all inside the expiration window. -/
theorem C5_kms_cache_counting_witness :
    (encryptIter goodEnv ⟨"", false, "k", false, true, 9⟩ "k" [5] 0 3
      (newKMSState ⟨"", false, "k", false, true, 9⟩)).1.genCalls = 1 ∧
    (∀ x ∈ (encryptIter goodEnv ⟨"", false, "k", false, true, 9⟩ "k" [5] 0 3
      (newKMSState ⟨"", false, "k", false, true, 9⟩)).2,
      ∃ ee : encryptedEvent, x = .ok ee ∧ ee.encryptedEncryptionKey = [7]) ∧
    (∀ ee : encryptedEvent, ee.encryptedEncryptionKey = [7] →
      (kmsClient.decrypt goodEnv ⟨"", false, "k", false, true, 9⟩
        (encryptIter goodEnv ⟨"", false, "k", false, true, 9⟩ "k" [5] 0 3
          (newKMSState ⟨"", false, "k", false, true, 9⟩)).1 6 ee).1.decCalls = 0) :=
  C5_kms_cache_counting goodEnv ⟨"", false, "k", false, true, 9⟩ [5] 0 6 3
    ⟨List.replicate 32 0, [7], "k"⟩ rfl rfl (by simp) (by decide) (by decide)

/-- **C7**: if an outbound stage fails (compression error, encryption error
or blob-upload error), `SendMessageWithAttributes` returns immediately:
the client state is left unchanged apart from the KMS call counter (no later
stage runs, nothing reaches the queue), the stage functions return the event
unchanged — no stage-marker attribute of the failed stage is added — and in
particular on an S3 upload failure no `payloadBucket` attribute is present
and the payload is not replaced by a descriptor. -/
theorem C7_stage_failure_aborts
    (env : Env) (st : ClientState) (now : Nat) (queueName : String)
    (payload : Bytes) (attrs : AttrMap) (id : String)
    (opts₁ opts₂ opts₃ : clientOpts) (e₁ e₂ e₃ : Err)
    (hgz : env.gzipCompress payload = .error e₁)
    (h1c : opts₁.compressionEnabled = true)
    (hgen : env.generateDataKeyExt opts₂.kmsKeyID = .error e₂)
    (h2c : opts₂.compressionEnabled = false) (h2k : opts₂.kmsKeyID ≠ "")
    (hcache : st.kms.cache = none)
    (hput : env.putObjectExt = some e₃)
    (h3c : opts₃.compressionEnabled = false) (h3k : opts₃.kmsKeyID = "")
    (h3f : opts₃.forceS3 = true) (h3b : opts₃.s3Bucket ≠ "") :
    compress env ⟨payload, attrs, id⟩ = (⟨payload, attrs, id⟩, some e₁) ∧
    Client.SendMessageWithAttributes env opts₁ st now queueName payload attrs =
      (st, .err e₁) ∧
    Client.encrypt env opts₂ st.kms now ⟨payload, attrs, id⟩ =
      ({ st.kms with genCalls := st.kms.genCalls + 1 }, ⟨payload, attrs, id⟩,
        some (.wrap "error encrypting payload" e₂)) ∧
    Client.SendMessageWithAttributes env opts₂ st now queueName payload attrs =
      ({ st with kms := { st.kms with genCalls := st.kms.genCalls + 1 } },
        .err (.wrap "error encrypting payload" e₂)) ∧
    Client.uploadToS3 env opts₃ st.store ⟨payload, attrs, id⟩ =
      (st.store, ⟨payload, attrs, id⟩, some (.wrap "error puting object to S3" e₃)) ∧
    Client.SendMessageWithAttributes env opts₃ st now queueName payload attrs =
      (st, .err (.wrap "error puting object to S3" e₃)) := by
  have h1 : compress env ⟨payload, attrs, id⟩ = (⟨payload, attrs, id⟩, some e₁) := by
    simp [compress, compressData, hgz]
  have h2 : Client.encrypt env opts₂ st.kms now ⟨payload, attrs, id⟩ =
      ({ st.kms with genCalls := st.kms.genCalls + 1 }, ⟨payload, attrs, id⟩,
        some (.wrap "error encrypting payload" e₂)) := by
    simp [Client.encrypt, kmsClient.encrypt, kmsClient.generateDataKey, hcache, hgen]
  have h2' : Client.encrypt env opts₂ st.kms now ⟨payload, attrs, ""⟩ =
      ({ st.kms with genCalls := st.kms.genCalls + 1 }, ⟨payload, attrs, ""⟩,
        some (.wrap "error encrypting payload" e₂)) := by
    simp [Client.encrypt, kmsClient.encrypt, kmsClient.generateDataKey, hcache, hgen]
  have h3 : Client.uploadToS3 env opts₃ st.store ⟨payload, attrs, id⟩ =
      (st.store, ⟨payload, attrs, id⟩,
        some (.wrap "error puting object to S3" e₃)) := by
    simp [Client.uploadToS3, s3Client.putObject, hput]
  have h3' : Client.uploadToS3 env opts₃ st.store ⟨payload, attrs, ""⟩ =
      (st.store, ⟨payload, attrs, ""⟩,
        some (.wrap "error puting object to S3" e₃)) := by
    simp [Client.uploadToS3, s3Client.putObject, hput]
  refine ⟨h1, ?_, h2, ?_, h3, ?_⟩
  · simp [Client.SendMessageWithAttributes, h1c, compress, compressData, hgz]
  · simp [Client.SendMessageWithAttributes, h2c, h2k, h2']
  · simp [Client.SendMessageWithAttributes, h3c, h3k, h3f, h3b, h3']

/-- Witness for C7: every collaborator failing against the three
single-stage configurations. -/
theorem C7_stage_failure_aborts_witness :
    compress envFail ⟨[1], [], ""⟩ = (⟨[1], [], ""⟩, some (.ext "gz")) ∧
    Client.SendMessageWithAttributes envFail ⟨"", false, "", true, false, 0⟩
      ⟨⟨none, 0, 0⟩, [], [], [], 0⟩ 0 "q" [1] [] =
      (⟨⟨none, 0, 0⟩, [], [], [], 0⟩, .err (.ext "gz")) ∧
    Client.encrypt envFail ⟨"", false, "k", false, false, 0⟩
      (⟨⟨none, 0, 0⟩, [], [], [], 0⟩ : ClientState).kms 0 ⟨[1], [], ""⟩ =
      ({ (⟨⟨none, 0, 0⟩, [], [], [], 0⟩ : ClientState).kms with
          genCalls := (⟨⟨none, 0, 0⟩, [], [], [], 0⟩ : ClientState).kms.genCalls + 1 },
        ⟨[1], [], ""⟩, some (.wrap "error encrypting payload" (.ext "kms"))) ∧
    Client.SendMessageWithAttributes envFail ⟨"", false, "k", false, false, 0⟩
      ⟨⟨none, 0, 0⟩, [], [], [], 0⟩ 0 "q" [1] [] =
      ({ (⟨⟨none, 0, 0⟩, [], [], [], 0⟩ : ClientState) with
          kms := { (⟨⟨none, 0, 0⟩, [], [], [], 0⟩ : ClientState).kms with
            genCalls := (⟨⟨none, 0, 0⟩, [], [], [], 0⟩ : ClientState).kms.genCalls + 1 } },
        .err (.wrap "error encrypting payload" (.ext "kms"))) ∧
    Client.uploadToS3 envFail ⟨"b", true, "", false, false, 0⟩
      (⟨⟨none, 0, 0⟩, [], [], [], 0⟩ : ClientState).store ⟨[1], [], ""⟩ =
      ((⟨⟨none, 0, 0⟩, [], [], [], 0⟩ : ClientState).store, ⟨[1], [], ""⟩,
        some (.wrap "error puting object to S3" (.ext "s3"))) ∧
    Client.SendMessageWithAttributes envFail ⟨"b", true, "", false, false, 0⟩
      ⟨⟨none, 0, 0⟩, [], [], [], 0⟩ 0 "q" [1] [] =
      (⟨⟨none, 0, 0⟩, [], [], [], 0⟩,
        .err (.wrap "error puting object to S3" (.ext "s3"))) :=
  C7_stage_failure_aborts envFail ⟨⟨none, 0, 0⟩, [], [], [], 0⟩ 0 "q" [1] [] ""
    ⟨"", false, "", true, false, 0⟩ ⟨"", false, "k", false, false, 0⟩
    ⟨"b", true, "", false, false, 0⟩ (.ext "gz") (.ext "kms") (.ext "s3")
    rfl rfl rfl rfl (by decide) rfl rfl rfl rfl rfl (by decide)

/-- **C8**: the first `SendMessageBatch` call on a batch marks it sent, and
any second call on the same batch object — under any environment, options
and state — returns the batch-already-sent error with the state unchanged
(so no transformation or transport call is performed); independently,
adding a message whose id is already present in a (non-full) batch fails at
add-time with the duplicate-id error, leaving the batch unchanged. -/
theorem C8_batch_already_sent_and_duplicate_id
    (env : Env) (opts : clientOpts) (st : ClientState) (now : Nat)
    (queueName url : String) (b bdup : Batch) (payload : Bytes) (id : String)
    (attrs : AttrMap)
    (hroom : bdup.size < maxBatchSize)
    (hdup : bdup.ids.contains id = true)
    (hsent : b.sent = false)
    (hqc : assocLookup st.queueCache queueName = some url)
    (hext : ∀ entries, ∃ bo err, env.sendMessageBatchExt queueName entries = (some bo, err)) :
    Batch.Add bdup payload id attrs = (bdup, bdup.size, some .errorIDNotUnique) ∧
    ∃ st₁ bo err,
      Client.SendMessageBatch env opts st now queueName b =
        (({ b with sent := true }, st₁), .ret (some bo, err)) ∧
      ∀ (env₂ : Env) (opts₂ : clientOpts) (st₂ : ClientState) (now₂ : Nat) (qn₂ : String),
        Client.SendMessageBatch env₂ opts₂ st₂ now₂ qn₂ { b with sent := true } =
          (({ b with sent := true }, st₂), .ret (none, some .errorBatchAlreadySent)) := by
  constructor
  · have hnot : ¬ bdup.size ≥ maxBatchSize := Nat.not_le.mpr hroom
    have hmem : id ∈ bdup.ids := by simpa using hdup
    simp [Batch.Add, hnot, hmem]
  · rcases hpe : processBatchEvents env opts st.kms st.store now b.events with
      ⟨kst, store, entries, failed⟩
    obtain ⟨bo, err, he⟩ := hext entries
    refine ⟨⟨kst, store, st.queueCache, st.queue, st.sendBatchCalls + 1⟩,
            { bo with failed := bo.failed ++ failed }, err, ?_, ?_⟩
    · simp only [Client.SendMessageBatch, hsent, Bool.false_eq_true, if_false, hpe,
        sqsClient.sendMessageBatch, sqsClient.getQueueURL, hqc, he, if_true]
    · intro env₂ opts₂ st₂ now₂ qn₂
      simp [Client.SendMessageBatch]

/-- Witness for C8: a one-message batch sent through the faithful
environment, and a duplicate-id add on a batch already holding that id. -/
theorem C8_batch_already_sent_and_duplicate_id_witness :
    Batch.Add ⟨1, ["a"], [⟨[1], [], "a"⟩], false⟩ [2] "a" [] =
      (⟨1, ["a"], [⟨[1], [], "a"⟩], false⟩, 1, some .errorIDNotUnique) ∧
    ∃ st₁ bo err,
      Client.SendMessageBatch goodEnv ⟨"", false, "", false, false, 0⟩
        ⟨⟨none, 0, 0⟩, [], [("q", "url")], [], 0⟩ 0 "q"
        ⟨1, ["a"], [⟨[1], [], "a"⟩], false⟩ =
        ((⟨1, ["a"], [⟨[1], [], "a"⟩], true⟩, st₁), .ret (some bo, err)) ∧
      ∀ (env₂ : Env) (opts₂ : clientOpts) (st₂ : ClientState) (now₂ : Nat) (qn₂ : String),
        Client.SendMessageBatch env₂ opts₂ st₂ now₂ qn₂ ⟨1, ["a"], [⟨[1], [], "a"⟩], true⟩ =
          ((⟨1, ["a"], [⟨[1], [], "a"⟩], true⟩, st₂), .ret (none, some .errorBatchAlreadySent)) :=
  C8_batch_already_sent_and_duplicate_id goodEnv ⟨"", false, "", false, false, 0⟩
    ⟨⟨none, 0, 0⟩, [], [("q", "url")], [], 0⟩ 0 "q" "url"
    ⟨1, ["a"], [⟨[1], [], "a"⟩], false⟩ ⟨1, ["a"], [⟨[1], [], "a"⟩], false⟩ [2] "a" []
    (by decide) (by decide) rfl rfl
    (fun entries => ⟨⟨entries.map (fun (e : batchRequestEntry) => e.id), []⟩, none, rfl⟩)

/-- **C9**: for every input shorter than the AES-GCM nonce length (12
bytes), `decryptData` with a valid 256-bit key panics (slice bounds out of
range) instead of returning an error; hence `ReceiveMessages` panics on an
inbound message carrying the `kmsKey` marker whose decoded payload field is
shorter than the nonce length, rather than reporting it as a failed entry. -/
theorem C9_short_ciphertext_panics
    (env : Env) (opts : clientOpts) (st : ClientState) (now : Nat)
    (queueName url : String) (msg : Message) (ee : encryptedEvent) (data key : Bytes)
    (hkeylen : key.length = 32)
    (hshort : data.length < gcmNonceSize)
    (hqc : assocLookup st.queueCache queueName = some url)
    (hrecv : env.receiveMessageExt queueName = (some [msg], none))
    (hs3 : assocContains msg.messageAttributes AttributeNameS3Bucket = false)
    (hkm : assocContains msg.messageAttributes AttributeNameKMSKey = true)
    (hkid : opts.kmsKeyID ≠ "")
    (hunm : env.unmarshalEncryptedEvent msg.body = .ok ee)
    (hcache : st.kms.cache = none)
    (hdec : env.decryptExt ee.encryptedEncryptionKey = .ok key)
    (hpay : ee.payload.length < gcmNonceSize) :
    decryptData env data key = .panicked "runtime error: slice bounds out of range" ∧
    ∃ st', Client.ReceiveMessages env opts st now queueName =
      (st', .panicked "runtime error: slice bounds out of range") := by
  have hvalid : validAESKeyLen key = true := by simp [validAESKeyLen, hkeylen]
  constructor
  · simp [decryptData, hvalid, hshort]
  · have hsnd : (Client.ReceiveMessages env opts st now queueName).2 =
        .panicked "runtime error: slice bounds out of range" := by
      simp only [Client.ReceiveMessages, sqsClient.receiveMessage, sqsClient.getQueueURL,
        hqc, hrecv, resolveMessages, resolveMessage, hs3, hkm, hkid, hunm,
        kmsClient.decrypt, kmsClient.fetchKey, hcache, hdec, decryptData, hvalid, hpay,
        Bool.false_eq_true, false_and, if_false, ne_eq, not_false_iff, and_true, if_true,
        ite_self]
    exact ⟨(Client.ReceiveMessages env opts st now queueName).1, by rw [← hsnd]⟩

/-- Witness for C9: a one-byte ciphertext against a 32-byte key, and a
received message whose encrypted envelope has an empty payload field. -/
theorem C9_short_ciphertext_panics_witness :
    decryptData envShort [0] (List.replicate 32 0) =
      .panicked "runtime error: slice bounds out of range" ∧
    ∃ st', Client.ReceiveMessages envShort
      ⟨"", false, "k", false, false, 0⟩
      ⟨⟨none, 0, 0⟩, [], [("q", "url")], [], 0⟩ 0 "q" =
      (st', .panicked "runtime error: slice bounds out of range") :=
  C9_short_ciphertext_panics envShort ⟨"", false, "k", false, false, 0⟩
    ⟨⟨none, 0, 0⟩, [], [("q", "url")], [], 0⟩ 0 "q" "url"
    msgShort eeShort [0] (List.replicate 32 0)
    (by simp) (by decide) (by decide) rfl (by decide) (by decide) (by decide)
    (eeUnmarshal_eeMarshal eeShort) rfl rfl (by decide)

end Kitsune
